import Mathlib

/-! Environment controller of `jx`: webhook validation and bootstrap.

A shallow embedding of `pkg/jx/cmd/controller_enviornmentcontroller.go`.

Go strings and byte slices are byte sequences; both are modelled as lists of
natural numbers (one number per byte).  The library routines the controller
calls (`encoding/hex`, `crypto/sha1`, `crypto/hmac`, `crypto/subtle`,
`net/http`) are modelled by executable definitions that follow the library's
own algorithms.
-/

namespace Jx

/-! ## Byte strings -/

/-- Go `[]byte`: a sequence of bytes. -/
abbrev Bytes := List Nat

/-- Go `string`: an immutable sequence of bytes. -/
abbrev GoString := List Nat

/-- The bytes of an ASCII string literal of the source. -/
def str (s : String) : GoString := s.toList.map Char.toNat

/-- Go `strings.HasPrefix(s, pre)`. -/
def hasPrefix (s pre : GoString) : Bool :=
  decide (pre.length ≤ s.length) && decide (s.take pre.length = pre)

/-- Go slice expression `s[n:]`; out of range (`n > len(s)`) is a run-time panic, here `none`. -/
def sliceFrom (s : GoString) (n : Nat) : Option GoString :=
  if n ≤ s.length then some (s.drop n) else none

/-! ## `encoding/hex` -/

/-- The table `hextable` of `encoding/hex`: the digits 0-9 and a-f. -/
def hextable : Bytes := str "0123456789abcdef"

/-- Go `hex.EncodeToString`: two digits per byte, `hextable[v>>4]` then `hextable[v&0x0f]`. -/
def hexEncodeToString : Bytes → GoString
  | [] => []
  | v :: rest =>
    hextable.getD ((v % 256) >>> 4) 0 :: hextable.getD ((v % 256) &&& 0x0f) 0
      :: hexEncodeToString rest

/-- Go `fromHexChar`: the value of one hex digit, `none` for any other byte. -/
def fromHexChar (c : Nat) : Option Nat :=
  if 48 ≤ c ∧ c ≤ 57 then some (c - 48)
  else if 97 ≤ c ∧ c ≤ 102 then some (c - 97 + 10)
  else if 65 ≤ c ∧ c ≤ 70 then some (c - 65 + 10)
  else none

/-- Go `hex.DecodeString`: pairs of digits give bytes `(a << 4) | b`; a byte that is not a
hex digit, or an odd length, is an error (`none`). -/
def hexDecodeString : GoString → Option Bytes
  | [] => some []
  | [_] => none
  | p :: q :: rest =>
    match fromHexChar p with
    | none => none
    | some a =>
      match fromHexChar q with
      | none => none
      | some b =>
        match hexDecodeString rest with
        | none => none
        | some out => some ((((a <<< 4) ||| b) % 256) :: out)

/-! ## `crypto/sha1` -/

/-- Rotate a 32-bit word left by `n` bits. -/
def rotl32 (x n : Nat) : Nat := ((x <<< n) ||| (x >>> (32 - n))) % 2 ^ 32

/-- The big-endian bytes of a 32-bit word. -/
def be32 (w : Nat) : Bytes :=
  [(w >>> 24) % 256, (w >>> 16) % 256, (w >>> 8) % 256, w % 256]

/-- The big-endian bytes of a 64-bit word. -/
def be64 (w : Nat) : Bytes := be32 ((w >>> 32) % 2 ^ 32) ++ be32 (w % 2 ^ 32)

/-- The 32-bit word of four big-endian bytes. -/
def word32 (b0 b1 b2 b3 : Nat) : Nat :=
  ((b0 % 256) <<< 24) ||| ((b1 % 256) <<< 16) ||| ((b2 % 256) <<< 8) ||| (b3 % 256)

/-- The big-endian 32-bit words of a byte sequence (whole words only). -/
def toWords : Bytes → List Nat
  | b0 :: b1 :: b2 :: b3 :: rest => word32 b0 b1 b2 b3 :: toWords rest
  | _ => []

/-- SHA-1 padding: a 0x80 byte, zeros up to 56 modulo 64, then the bit length in 64 bits. -/
def sha1Pad (msg : Bytes) : Bytes :=
  msg ++ [0x80] ++ List.replicate ((119 - msg.length % 64) % 64) 0
    ++ be64 ((msg.length * 8) % 2 ^ 64)

/-- The message schedule of one block: 16 words extended to 80. -/
def sha1Schedule (block : List Nat) : List Nat :=
  (List.range 64).foldl
    (fun w i =>
      w ++ [rotl32 (w.getD (i + 13) 0 ^^^ w.getD (i + 8) 0 ^^^ w.getD (i + 2) 0 ^^^ w.getD i 0) 1])
    block

/-- The SHA-1 chaining state, five 32-bit words. -/
structure Sha1State where
  h0 : Nat
  h1 : Nat
  h2 : Nat
  h3 : Nat
  h4 : Nat
  deriving DecidableEq, Repr

/-- The initial chaining state of SHA-1. -/
def sha1Init : Sha1State :=
  ⟨0x67452301, 0xEFCDAB89, 0x98BADCFE, 0x10325476, 0xC3D2E1F0⟩

/-- One of the 80 rounds of the SHA-1 compression function. -/
def sha1Round (s : Sha1State) (i w : Nat) : Sha1State :=
  let f :=
    if i < 20 then (s.h1 &&& s.h2) ||| ((s.h1 ^^^ 0xFFFFFFFF) &&& s.h3)
    else if i < 40 then s.h1 ^^^ s.h2 ^^^ s.h3
    else if i < 60 then (s.h1 &&& s.h2) ||| (s.h1 &&& s.h3) ||| (s.h2 &&& s.h3)
    else s.h1 ^^^ s.h2 ^^^ s.h3
  let k :=
    if i < 20 then 0x5A827999
    else if i < 40 then 0x6ED9EBA1
    else if i < 60 then 0x8F1BBCDC
    else 0xCA62C1D6
  ⟨(rotl32 s.h0 5 + f + s.h4 + w + k) % 2 ^ 32, s.h0, rotl32 s.h1 30, s.h2, s.h3⟩

/-- Auxiliary loop of the compression function over the scheduled words. -/
def sha1Rounds (s : Sha1State) (i : Nat) : List Nat → Sha1State
  | [] => s
  | w :: ws => sha1Rounds (sha1Round s i w) (i + 1) ws

/-- The SHA-1 compression function on one 64-byte block. -/
def sha1Block (s : Sha1State) (block : Bytes) : Sha1State :=
  let t := sha1Rounds s 0 (sha1Schedule (toWords block))
  ⟨(s.h0 + t.h0) % 2 ^ 32, (s.h1 + t.h1) % 2 ^ 32, (s.h2 + t.h2) % 2 ^ 32,
    (s.h3 + t.h3) % 2 ^ 32, (s.h4 + t.h4) % 2 ^ 32⟩

/-- Fold the compression function over the 64-byte blocks of a padded message. -/
def sha1Blocks (fuel : Nat) (s : Sha1State) (data : Bytes) : Sha1State :=
  match fuel with
  | 0 => s
  | fuel + 1 =>
    if data.length < 64 then s
    else sha1Blocks fuel (sha1Block s (data.take 64)) (data.drop 64)

/-- Go `sha1.Sum`: the 20-byte SHA-1 digest. -/
def sha1 (msg : Bytes) : Bytes :=
  let padded := sha1Pad msg
  let s := sha1Blocks (padded.length / 64 + 1) sha1Init padded
  be32 s.h0 ++ be32 s.h1 ++ be32 s.h2 ++ be32 s.h3 ++ be32 s.h4

/-! ## `crypto/hmac` and `crypto/subtle` -/

/-- Go `hmac.New(sha1.New, key)`, `Write(payload)`, `Sum(nil)`: HMAC-SHA1 of RFC 2104. -/
def hmacSha1 (key payload : Bytes) : Bytes :=
  let key1 := if 64 < key.length then sha1 key else key
  let padded := key1 ++ List.replicate (64 - key1.length) 0
  let ipad := padded.map (fun b => (b % 256) ^^^ 0x36)
  let opad := padded.map (fun b => (b % 256) ^^^ 0x5c)
  sha1 (opad ++ sha1 (ipad ++ payload))

/-- Go `subtle.ConstantTimeByteEq`: `int((uint32(x^y) - 1) >> 31)`. -/
def constantTimeByteEq (x y : Nat) : Nat :=
  ((((x % 256) ^^^ (y % 256)) + 2 ^ 32 - 1) % 2 ^ 32) >>> 31

/-- Go `subtle.ConstantTimeCompare`: 0 when the lengths differ, else 1 exactly when the
OR of the bytewise XORs is zero. -/
def constantTimeCompare (x y : Bytes) : Nat :=
  if x.length ≠ y.length then 0
  else constantTimeByteEq
    ((List.zipWith (fun a b => (a % 256) ^^^ (b % 256)) x y).foldl (fun v d => v ||| d) 0) 0

/-- Go `hmac.Equal`: `subtle.ConstantTimeCompare(mac1, mac2) == 1`. -/
def hmacEqual (mac1 mac2 : Bytes) : Bool := constantTimeCompare mac1 mac2 == 1

/-! ## Signature verifier -/

/-- The source function `ValidatePayload`.  The result is `none` if the body would panic. -/
def ValidatePayload (payload : Bytes) (sig : GoString) (key : Bytes) : Option Bool :=
  if !hasPrefix sig (str "sha1=") then some false
  else
    match sliceFrom sig 5 with
    | none => none
    | some sig1 =>
      match hexDecodeString sig1 with
      | none => some false
      | some sb =>
        let expected := hmacSha1 key payload
        some (hmacEqual sb expected)

/-- The source function `PayloadSignature`. -/
def PayloadSignature (payload : Bytes) (key : Bytes) : GoString :=
  let sum := hmacSha1 key payload
  str "sha1=" ++ hexEncodeToString sum

/-! ## `net/http`: headers, requests, responses -/

/-- Go `http.MethodGet`. -/
def MethodGet : GoString := str "GET"

/-- Go `http.MethodPost`. -/
def MethodPost : GoString := str "POST"

/-- Go `http.StatusOK`. -/
def StatusOK : Nat := 200

/-- Go `http.StatusBadRequest`. -/
def StatusBadRequest : Nat := 400

/-- Go `http.StatusForbidden`. -/
def StatusForbidden : Nat := 403

/-- Go `http.StatusMethodNotAllowed`. -/
def StatusMethodNotAllowed : Nat := 405

/-- Go `http.StatusInternalServerError`. -/
def StatusInternalServerError : Nat := 500

/-- Go `textproto.validHeaderFieldByte`: the token characters of RFC 7230. -/
def validHeaderFieldByte (c : Nat) : Bool :=
  (decide (48 ≤ c) && decide (c ≤ 57)) || (decide (65 ≤ c) && decide (c ≤ 90))
    || (decide (97 ≤ c) && decide (c ≤ 122))
    || [33, 35, 36, 37, 38, 39, 42, 43, 45, 46, 94, 95, 96, 124, 126].contains c

/-- The loop of Go `textproto.canonicalMIMEHeaderKey`: upper case for the first letter and
for a letter after a dash, lower case for the others. -/
def canonicalLoop (upper : Bool) : GoString → GoString
  | [] => []
  | c :: rest =>
    let c1 :=
      if upper && decide (97 ≤ c) && decide (c ≤ 122) then c - 32
      else if !upper && decide (65 ≤ c) && decide (c ≤ 90) then c + 32
      else c
    c1 :: canonicalLoop (c1 == 45) rest

/-- Go `textproto.CanonicalMIMEHeaderKey`: a key with a byte that is not a token character
is returned unchanged. -/
def CanonicalMIMEHeaderKey (s : GoString) : GoString :=
  if s.all validHeaderFieldByte then canonicalLoop true s else s

/-- Go `http.Header`, a map from canonical keys to the values received under them. -/
structure Header where
  entries : List (GoString × List GoString)
  deriving DecidableEq, Repr

/-- Go `Header.Get`: the first value under the canonical form of the key, or "". -/
def Header.Get (h : Header) (key : GoString) : GoString :=
  match h.entries.lookup (CanonicalMIMEHeaderKey key) with
  | some (v :: _) => v
  | _ => []

/-- Go error values, by their message. -/
abbrev GoError := GoString

/-- The request body (`io.ReadCloser`): what reading to the end yields, the error the read
ends in if any, and whether the body has been read and closed. -/
structure Body where
  content : Bytes
  readErr : Option GoError
  read : Bool
  closed : Bool
  deriving DecidableEq, Repr

/-- Go `ioutil.ReadAll(r.Body)`: the content, or the read error; the body is then read. -/
def Body.readAll (b : Body) : Except GoError Bytes × Body :=
  match b.readErr with
  | some e => (.error e, { b with read := true })
  | none => (.ok b.content, { b with read := true })

/-- The part of Go `http.Request` the controller looks at. -/
structure Request where
  Method : GoString
  Header : Header
  Body : Body
  deriving DecidableEq, Repr

/-- Go `http.ResponseWriter`: the header map, the status once written, the body written. -/
structure ResponseWriter where
  header : List (GoString × GoString)
  status : Option Nat
  body : Bytes
  deriving DecidableEq, Repr

/-- The response writer the server hands to a handler: nothing set, nothing written. -/
def ResponseWriter.fresh : ResponseWriter := ⟨[], none, []⟩

/-- Go `w.Header().Set(key, value)`. -/
def ResponseWriter.setHeader (w : ResponseWriter) (key value : GoString) : ResponseWriter :=
  { w with header := (key, value) :: w.header.filter (fun e => e.1 ≠ key) }

/-- Go `w.WriteHeader(code)`: only the first call sets the status. -/
def ResponseWriter.WriteHeader (w : ResponseWriter) (code : Nat) : ResponseWriter :=
  match w.status with
  | none => { w with status := some code }
  | some _ => w

/-- Go `w.Write(data)`: writes the status 200 first if none was written. -/
def ResponseWriter.Write (w : ResponseWriter) (data : Bytes) : ResponseWriter :=
  let w1 := w.WriteHeader StatusOK
  { w1 with body := w1.body ++ data }

/-- Go `http.Error(w, error, code)`. -/
def httpError (w : ResponseWriter) (error : GoString) (code : Nat) : ResponseWriter :=
  let w1 := w.setHeader (str "Content-Type") (str "text/plain; charset=utf-8")
  let w2 := w1.setHeader (str "X-Content-Type-Options") (str "nosniff")
  let w3 := w2.WriteHeader code
  w3.Write (error ++ [10])

/-- A debug entry of the logger: the fields "status-code" and "response". -/
structure DebugEntry where
  statusCode : Nat
  response : GoString
  deriving DecidableEq, Repr

/-- The source function `responseHTTPError`: one debug entry, then `http.Error`. -/
def responseHTTPError (w : ResponseWriter) (statusCode : Nat) (response : GoString) :
    ResponseWriter × DebugEntry :=
  (httpError w response statusCode, ⟨statusCode, response⟩)

/-! ## Webhook request validator -/

/-- The five values `ValidateWebhook` returns, with the response writer and the request as
the call leaves them and the debug entries it logged. -/
structure Validated where
  eventType : GoString
  eventGUID : GoString
  payload : Option Bytes
  valid : Bool
  status : Nat
  w : ResponseWriter
  r : Request
  log : List DebugEntry
  deriving DecidableEq, Repr

/-- A rejecting return of `ValidateWebhook`: `responseHTTPError`, then
`return "", "", nil, false, statusCode`. -/
def rejectWebhook (w : ResponseWriter) (r : Request) (statusCode : Nat) (response : GoString) :
    Validated :=
  let out := responseHTTPError w statusCode response
  ⟨[], [], none, false, statusCode, out.1, r, [out.2]⟩

/-- Lines 479 to 499 of `ValidateWebhook`: the checks after the event headers. -/
def validateSigned (w : ResponseWriter) (r : Request) (hmacSecret : Bytes)
    (eventType eventGUID : GoString) : Option Validated :=
  let sig := r.Header.Get (str "X-Hub-Signature")
  if sig = [] then
    some (rejectWebhook w r StatusForbidden (str "403 Forbidden: Missing X-Hub-Signature"))
  else
    let contentType := r.Header.Get (str "content-type")
    if contentType ≠ str "application/json" then
      some (rejectWebhook w r StatusBadRequest (str "400 Bad Request: Hook only accepts content-type: application/json - please reconfigure this hook on GitHub"))
    else
      let rd := r.Body.readAll
      let r1 : Request := { r with Body := rd.2 }
      match rd.1 with
      | .error _ =>
        some (rejectWebhook w r1 StatusInternalServerError
          (str "500 Internal Server Error: Failed to read request body"))
      | .ok payload =>
        match ValidatePayload payload sig hmacSecret with
        | none => none
        | some false =>
          some (rejectWebhook w r1 StatusForbidden (str "403 Forbidden: Invalid X-Hub-Signature"))
        | some true =>
          some ⟨eventType, eventGUID, some payload, true, StatusOK, w, r1, []⟩

/-- Lines 454 to 478 of `ValidateWebhook`, before the deferred `r.Body.Close()` runs. -/
def validateWebhookBody (w : ResponseWriter) (r : Request) (hmacSecret : Bytes)
    (requireGitHubHeaders : Bool) : Option Validated :=
  if r.Method = MethodGet then
    some ⟨[], [], none, false, StatusOK, w, r, []⟩
  else if r.Method ≠ MethodPost then
    some (rejectWebhook w r StatusMethodNotAllowed (str "405 Method not allowed"))
  else
    let eventType := r.Header.Get (str "X-GitHub-Event")
    let eventGUID := r.Header.Get (str "X-GitHub-Delivery")
    if requireGitHubHeaders then
      if eventType = [] then
        some (rejectWebhook w r StatusBadRequest
          (str "400 Bad Request: Missing X-GitHub-Event Header"))
      else if eventGUID = [] then
        some (rejectWebhook w r StatusBadRequest
          (str "400 Bad Request: Missing X-GitHub-Delivery Header"))
      else validateSigned w r hmacSecret eventType eventGUID
    else
      if eventType = [] then validateSigned w r hmacSecret (str "push") eventGUID
      else validateSigned w r hmacSecret eventType eventGUID

/-- Go `r.Body.Close()`. -/
def Request.closeBody (r : Request) : Request :=
  { r with Body := { r.Body with closed := true } }

/-- The source function `ValidateWebhook`; `none` if the body would panic.  The deferred
`r.Body.Close()` runs on every return. -/
def ValidateWebhook (w : ResponseWriter) (r : Request) (hmacSecret : Bytes)
    (requireGitHubHeaders : Bool) : Option Validated :=
  match validateWebhookBody w r hmacSecret requireGitHubHeaders with
  | none => none
  | some v => some { v with r := v.r.closeBody }

/-- A rejecting return: not valid, the given status code returned, and the same code
written to a response that had no status yet. -/
def RejectedWith (w : ResponseWriter) (v : Validated) (code : Nat) : Prop :=
  v.valid = false ∧ v.status = code ∧ (w.status = none → v.w.status = some code)

/-- The checks after the event headers, behind the deferred close. -/
def SignedOutcome (w : ResponseWriter) (r : Request) (secret : Bytes) (et eg : GoString)
    (v : Validated) : Prop :=
  (r.Header.Get (str "X-Hub-Signature") = [] ∧ RejectedWith w v 403) ∨
  (r.Header.Get (str "X-Hub-Signature") ≠ [] ∧
    r.Header.Get (str "content-type") ≠ str "application/json" ∧ RejectedWith w v 400) ∨
  (r.Header.Get (str "X-Hub-Signature") ≠ [] ∧
    r.Header.Get (str "content-type") = str "application/json" ∧
    r.Body.readErr ≠ none ∧ RejectedWith w v 500) ∨
  (r.Header.Get (str "X-Hub-Signature") ≠ [] ∧
    r.Header.Get (str "content-type") = str "application/json" ∧
    r.Body.readErr = none ∧
    ValidatePayload r.Body.content (r.Header.Get (str "X-Hub-Signature")) secret
      = some false ∧ RejectedWith w v 403) ∨
  (r.Header.Get (str "X-Hub-Signature") ≠ [] ∧
    r.Header.Get (str "content-type") = str "application/json" ∧
    r.Body.readErr = none ∧
    ValidatePayload r.Body.content (r.Header.Get (str "X-Hub-Signature")) secret
      = some true ∧
    v = ⟨et, eg, some r.Body.content, true, StatusOK, w,
      { r with Body := { r.Body with read := true, closed := true } }, []⟩)

/-- The decision sequence as the specification lists it: the status of the first check
that fails, in the fixed order, and `none` when no check fails. -/
def firstFailingCheck (r : Request) (hmacSecret : Bytes) (requireGitHubHeaders : Bool) :
    Option Nat :=
  if r.Method = MethodGet then some 200
  else if r.Method ≠ MethodPost then some 405
  else if requireGitHubHeaders = true ∧ (r.Header.Get (str "X-GitHub-Event") = [] ∨
      r.Header.Get (str "X-GitHub-Delivery") = []) then some 400
  else if r.Header.Get (str "X-Hub-Signature") = [] then some 403
  else if r.Header.Get (str "content-type") ≠ str "application/json" then some 400
  else if r.Body.readErr ≠ none then some 500
  else if ValidatePayload r.Body.content (r.Header.Get (str "X-Hub-Signature")) hmacSecret
      ≠ some true then some 403
  else none

/-! ## Controller options and the trigger endpoint -/

/-- The fields of `opts.CommonOptions` the controller reads or writes. -/
structure CommonOptions where
  ServiceAccount : GoString
  HMACToken : GoString
  BatchMode : Bool
  deriving DecidableEq, Repr

/-- The source type `ControllerEnvironmentOptions`.  `Labels` lists the entries of the Go
map, one per key. -/
structure ControllerEnvironmentOptions where
  CommonOptions : CommonOptions
  BindAddress : GoString
  Path : GoString
  Port : Int
  NoGitCredeentialsInit : Bool
  NoRegisterWebHook : Bool
  GitServerURL : GoString
  GitOwner : GoString
  GitRepo : GoString
  SourceURL : GoString
  WebHookURL : GoString
  Branch : GoString
  Labels : List (GoString × GoString)
  secret : Bytes
  deriving DecidableEq, Repr

/-- The fields of `StepCreateTaskOptions` that `startPipelineRun` sets. -/
structure StepCreateTaskOptions where
  CommonOptions : Option CommonOptions
  PipelineKind : GoString
  SourceName : GoString
  Duration : Nat
  Trigger : GoString
  CloneGitURL : GoString
  DeleteTempDir : Bool
  Branch : GoString
  Revision : GoString
  ServiceAccount : GoString
  CustomLabels : List GoString
  deriving DecidableEq, Repr

/-- Go `&StepCreateTaskOptions{}`: every field at its zero value. -/
def StepCreateTaskOptions.zero : StepCreateTaskOptions :=
  ⟨none, [], [], 0, [], [], false, [], [], [], []⟩

/-- The constant `jenkinsfile.PipelineKindRelease`. -/
def PipelineKindRelease : GoString := str "release"

/-- The constant `pipelineapi.PipelineTriggerTypeManual` of the Tekton API. -/
def PipelineTriggerTypeManual : GoString := str "manual"

/-- Go `time.Second`, in nanoseconds. -/
def timeSecond : Nat := 1000000000

/-- The collaborators of the trigger endpoint: the git-credentials step, the pipeline step
with the object references it produces, the JSON encoder, and the order in which Go
ranges over a map (any order, always a permutation of the entries). -/
structure Collaborators where
  stepGitCredentialsRun : CommonOptions → Option GoError
  createTaskRun : StepCreateTaskOptions → Except GoError (List GoString)
  jsonMarshal : List GoString → Except GoError Bytes
  rangeOrder : List (GoString × GoString) → List (GoString × GoString)
  rangeOrder_perm : ∀ m, (rangeOrder m).Perm m

/-- What a handler leaves behind: the response, the request, each invocation of the
pipeline step and of the git-credentials step, and the log. -/
structure Handled where
  w : ResponseWriter
  r : Request
  pipelineRuns : List StepCreateTaskOptions
  gitCredentialsRuns : List CommonOptions
  warnings : List GoString
  errors : List GoString
  debug : List DebugEntry
  deriving DecidableEq, Repr

/-- Go `errors.Wrapf(err, message)`: the message, a colon, the cause. -/
def Wrapf (err : GoError) (message : GoString) : GoError := message ++ str ": " ++ err

/-- The source function `stepGitCredentials`: the error if any, and the options the step
ran with if it ran. -/
def stepGitCredentials (c : Collaborators) (o : ControllerEnvironmentOptions) :
    Option GoError × List CommonOptions :=
  if !o.NoGitCredeentialsInit then
    let copy : CommonOptions := { o.CommonOptions with BatchMode := true }
    match c.stepGitCredentialsRun copy with
    | some err => (some (Wrapf err (str "failed to run: jx step gc credentials")), [copy])
    | none => (none, [copy])
  else (none, [])

/-- Go `fmt.Sprintf("%s=%s", key, value)`. -/
def sprintfKeyValue (key value : GoString) : GoString := key ++ str "=" ++ value

/-- The request `startPipelineRun` builds from the controller's configuration. -/
def pipelineRequest (c : Collaborators) (o : ControllerEnvironmentOptions) :
    StepCreateTaskOptions :=
  let sourceURL := o.SourceURL
  let branch := o.Branch
  let revision := str "master"
  let pr := StepCreateTaskOptions.zero
  let pr := { pr with PipelineKind := PipelineKindRelease }
  let pr := { pr with CommonOptions := some o.CommonOptions }
  let pr := { pr with SourceName := str "source" }
  let pr := { pr with Duration := timeSecond * 20 }
  let pr := { pr with Trigger := PipelineTriggerTypeManual }
  let pr := { pr with CloneGitURL := sourceURL }
  let pr := { pr with DeleteTempDir := true }
  let pr := { pr with Branch := branch }
  let pr := { pr with Revision := revision }
  let pr := { pr with ServiceAccount := o.CommonOptions.ServiceAccount }
  (c.rangeOrder o.Labels).foldl
    (fun pr kv => { pr with CustomLabels := pr.CustomLabels ++ [sprintfKeyValue kv.1 kv.2] }) pr

/-- The source function `returnError`: log, status 500, the message as body. -/
def returnError (err : GoError) (message : GoString) (h : Handled) : Handled :=
  { h with
    errors := h.errors ++ [err ++ str " " ++ message, err]
    w := (h.w.WriteHeader 500).Write message }

/-- The source function `startPipelineRun`. -/
def startPipelineRun (c : Collaborators) (o : ControllerEnvironmentOptions)
    (w : ResponseWriter) (r : Request) : Handled :=
  let gc := stepGitCredentials c o
  let warnings := match gc.1 with
    | some err => [err]
    | none => []
  let pr := pipelineRequest c o
  let h : Handled := ⟨w, r, [pr], gc.2, warnings, [], []⟩
  match c.createTaskRun pr with
  | .error err => returnError err err h
  | .ok resources =>
    match c.jsonMarshal resources with
    | .error err =>
      let err1 := Wrapf err (str "marshalling the JSON payload")
      returnError err1 (str "failed to marshal payload") h
    | .ok data => { h with w := h.w.Write data }

/-- The source function `handleRequests`; `none` if the body would panic. -/
def handleRequests (c : Collaborators) (o : ControllerEnvironmentOptions)
    (w : ResponseWriter) (r : Request) : Option Handled :=
  match ValidateWebhook w r o.secret false with
  | none => none
  | some v =>
    if !v.valid || v.eventType = [] then
      some ⟨v.w, v.r, [], [], [], [], v.log⟩
    else
      let h := startPipelineRun c o v.w v.r
      some { h with debug := v.log }

/-! ## Secret provisioning -/

/-- The source constant `environmentControllerHmacSecret`. -/
def environmentControllerHmacSecret : GoString := str "environment-controller-hmac"

/-- The source constant `environmentControllerHmacSecretKey`. -/
def environmentControllerHmacSecretKey : GoString := str "hmac"

/-- The fields of `corev1.Secret` the controller uses; `Data = none` is the nil map. -/
structure Secret where
  Name : GoString
  Data : Option (List (GoString × Bytes))
  deriving DecidableEq, Repr

/-- Go `secret.Data[key]`: the nil slice for the nil map and for an absent key. -/
def Secret.get (s : Secret) (key : GoString) : Bytes :=
  match s.Data with
  | none => []
  | some m => (m.lookup key).getD []

/-- Go `if secret.Data == nil { secret.Data = map[string][]byte{} }` followed by
`secret.Data[key] = value`. -/
def Secret.set (s : Secret) (key : GoString) (value : Bytes) : Secret :=
  { s with Data := some ((key, value) :: (s.Data.getD []).filter (fun e => e.1 ≠ key)) }

/-- The fields of `gits.GitWebHookArguments` the controller sets. -/
structure GitWebHookArguments where
  Owner : GoString
  Repo : GoString
  URL : GoString
  Secret : GoString
  deriving DecidableEq, Repr

/-- The calls the startup path makes on its collaborators, in order of issue. -/
inductive Call where
  | secretGet (name : GoString)
  | secretUpdate (secret : Secret)
  | secretCreate (secret : Secret)
  | generateToken (n : Nat)
  | initGitConfigAndUser
  | registerWebHook (webhookURL : GoString) (secret : Bytes)
  | createWebHook (args : GitWebHookArguments)
  | listenAndServe (addr : GoString) (path : GoString)
  deriving DecidableEq, Repr

/-- The cluster as the controller reaches it: `KubeClientAndNamespace` gives the namespace
or fails, and the secret interface answers `Get`, `Update` and `Create` with a secret or
an error.  With an error client-go returns a nil pointer or a pointer to an empty Secret;
neither carries data. -/
structure Cluster where
  kubeClientAndNamespace : Except GoError GoString
  secretGet : GoString → Except GoError Secret
  secretUpdate : Secret → Except GoError Secret
  secretCreate : Secret → Except GoError Secret

/-- Modelled from the spec: `util.RandStringBytesMaskImprSrc`, a function of this
repository outside the sources at hand; the spec has it "generate a new random token
(fixed length of 41 characters ...)".  It returns a token of the length asked for, or an
error. -/
structure TokenSource where
  generate : Nat → Except GoError GoString
  generate_length : ∀ n t, generate n = .ok t → t.length = n

/-- The source function `ensureHmacTokenPopulated`: the error if any, the options after the
call, and the calls made. -/
def ensureHmacTokenPopulated (g : TokenSource) (o : ControllerEnvironmentOptions) :
    Option GoError × ControllerEnvironmentOptions × List Call :=
  if o.CommonOptions.HMACToken = [] then
    match g.generate 41 with
    | .error err =>
      (some (Wrapf err (str "failed to generate hmac token")), o, [Call.generateToken 41])
    | .ok token =>
      (none, { o with CommonOptions := { o.CommonOptions with HMACToken := token } },
        [Call.generateToken 41])
  else (none, o, [])

/-- The error of the last check of `loadOrCreateHmacSecret`. -/
def noSecretFound (ns : GoString) : GoError :=
  str "no Secret " ++ environmentControllerHmacSecret ++ str " found in namespace " ++ ns

/-- Lines 337 to 340 of `loadOrCreateHmacSecret`: the check on the variable `secret` of the
function's outer scope (`none` for a nil pointer) and the value returned. -/
def returnSecretValue (secret : Option Secret) (ns : GoString) : Except GoError Bytes :=
  match secret with
  | none => .error (noSecretFound ns)
  | some s =>
    if s.Data = none then .error (noSecretFound ns)
    else .ok (s.get environmentControllerHmacSecretKey)

/-- The source function `loadOrCreateHmacSecret`: the returned pair as an `Except`, the
options after the call, and the calls made.  In the branch of a failed `Get` the source
declares a new variable `secret` (`secret := &corev1.Secret{...}`), so the result of `Create`
never reaches the outer `secret` that the last check reads; that one is still what the
failed `Get` returned. -/
def loadOrCreateHmacSecret (k : Cluster) (g : TokenSource) (o : ControllerEnvironmentOptions) :
    Except GoError Bytes × ControllerEnvironmentOptions × List Call :=
  match k.kubeClientAndNamespace with
  | .error err => (.error err, o, [])
  | .ok ns =>
    let got := Call.secretGet environmentControllerHmacSecret
    match k.secretGet environmentControllerHmacSecret with
    | .ok secret =>
      if secret.Data = none ∨ (secret.get environmentControllerHmacSecretKey).length = 0 then
        match ensureHmacTokenPopulated g o with
        | (some err, o1, calls) => (.error err, o1, got :: calls)
        | (none, o1, calls) =>
          let secret1 := secret.set environmentControllerHmacSecretKey o1.CommonOptions.HMACToken
          match k.secretUpdate secret1 with
          | .error err =>
            (.error (Wrapf err (str "failed to update HMAC token secret "
                ++ environmentControllerHmacSecret ++ str " in namespace " ++ ns)),
              o1, got :: calls ++ [Call.secretUpdate secret1])
          | .ok secret2 =>
            (returnSecretValue (some secret2) ns, o1,
              got :: calls ++ [Call.secretUpdate secret1])
      else (returnSecretValue (some secret) ns, o, [got])
    | .error _ =>
      match ensureHmacTokenPopulated g o with
      | (some err, o1, calls) => (.error err, o1, got :: calls)
      | (none, o1, calls) =>
        let created : Secret :=
          ⟨environmentControllerHmacSecret,
            some [(environmentControllerHmacSecretKey, o1.CommonOptions.HMACToken)]⟩
        match k.secretCreate created with
        | .error err =>
          (.error (Wrapf err (str "failed to create HMAC token secret "
              ++ environmentControllerHmacSecret ++ str " in namespace " ++ ns)),
            o1, got :: calls ++ [Call.secretCreate created])
        | .ok _ =>
          (returnSecretValue none ns, o1, got :: calls ++ [Call.secretCreate created])

/-! ## Command line and startup -/

/-- The value given to a flag on the command line. -/
inductive FlagValue where
  | int (n : Int)
  | string (s : GoString)
  | bool (b : Bool)
  deriving DecidableEq, Repr

/-- The options after the flag registrations of `NewCmdControllerEnvironment`: the struct
literal gives every field its zero value, then each registration writes its default to the
variable it is bound to. -/
def registeredDefaults (commonOpts : CommonOptions) : ControllerEnvironmentOptions :=
  { CommonOptions := { commonOpts with ServiceAccount := str "tekton-bot" }
    BindAddress := []
    Path := str "/"
    Port := 8080
    NoGitCredeentialsInit := false
    NoRegisterWebHook := false
    GitServerURL := []
    GitOwner := []
    GitRepo := []
    SourceURL := []
    WebHookURL := []
    Branch := []
    Labels := []
    secret := [] }

/-- One flag of the command line, written to the variable its registration in
`NewCmdControllerEnvironment` binds; `none` for an unknown flag or a value of the wrong
type.  The names "port" and "bind" stand for the constants `optionPort` and `optionBind`. -/
def setFlag (o : ControllerEnvironmentOptions) (name : GoString) (value : FlagValue) :
    Option ControllerEnvironmentOptions :=
  match value with
  | .int n =>
    if name = str "port" then some { o with Port := n } else none
  | .bool b =>
    if name = str "no-git-init" then some { o with NoGitCredeentialsInit := b }
    else if name = str "no-register-webhook" then some { o with NoGitCredeentialsInit := b }
    else none
  | .string v =>
    if name = str "bind" then some { o with BindAddress := v }
    else if name = str "path" then some { o with Path := v }
    else if name = str "service-account" then
      some { o with CommonOptions := { o.CommonOptions with ServiceAccount := v } }
    else if name = str "source-url" then some { o with SourceURL := v }
    else if name = str "git-server-url" then some { o with GitServerURL := v }
    else if name = str "owner" then some { o with GitOwner := v }
    else if name = str "repo" then some { o with GitRepo := v }
    else if name = str "webhook-url" then some { o with WebHookURL := v }
    else none

/-- The flags of a command line, applied from left to right. -/
def parseFlags (o : ControllerEnvironmentOptions) :
    List (GoString × FlagValue) → Option ControllerEnvironmentOptions
  | [] => some o
  | (name, value) :: rest =>
    match setFlag o name value with
    | none => none
    | some o1 => parseFlags o1 rest

/-- The options with which the command built by the source function
`NewCmdControllerEnvironment` calls `Run` for a given command line. -/
def NewCmdControllerEnvironment (commonOpts : CommonOptions)
    (flags : List (GoString × FlagValue)) : Option ControllerEnvironmentOptions :=
  parseFlags (registeredDefaults commonOpts) flags

/-- What `gits.ParseGitURL` yields: the provider URL, the organisation and the name. -/
structure GitRepository where
  ProviderURL : GoString
  Organisation : GoString
  Name : GoString
  deriving DecidableEq, Repr

/-- The collaborators of `Run`: the git URL parser, the process environment, the outcome
of `discoverWebHookURL` (service lookup and load-balancer polling), the cluster, the token
source, `InitGitConfigAndUser`, the git provider and its `CreateWebHook`, `util.UrlJoin`,
and the error `http.ListenAndServe` ends with. -/
structure Startup where
  parseGitURL : GoString → Except GoError GitRepository
  getenv : GoString → GoString
  discoverWebHookURL : Except GoError GoString
  cluster : Cluster
  tokens : TokenSource
  initGitConfigAndUser : Option GoError
  gitProviderForURL : GoString → Option GoError
  createWebHook : GitWebHookArguments → Option GoError
  urlJoin : List GoString → GoString
  listenAndServe : GoString → GoError

/-- Modelled from the spec: `util.MissingOption`, outside the sources at hand; a "fatal
startup error naming the missing option". -/
def MissingOption (name : GoString) : GoError := str "Missing option: --" ++ name

/-- The source function `registerWebHook`. -/
def registerWebHook (s : Startup) (o : ControllerEnvironmentOptions) (webhookURL : GoString)
    (secret : Bytes) : Option GoError × List Call :=
  let gitURL := o.SourceURL
  match s.gitProviderForURL gitURL with
  | some err =>
    (some (Wrapf err (str "failed to create git provider for git URL " ++ gitURL)), [])
  | none =>
    let webHookData : GitWebHookArguments := ⟨o.GitOwner, o.GitRepo, webhookURL, secret⟩
    match s.createWebHook webHookData with
    | some err =>
      (some (Wrapf err (str "failed to create git WebHook provider for URL " ++ gitURL)),
        [Call.createWebHook webHookData])
    | none => (none, [Call.createWebHook webHookData])

/-- Lines 104 to 136 of `Run`: the repository coordinates. -/
def resolveRepository (s : Startup) (o : ControllerEnvironmentOptions) :
    Option GoError × ControllerEnvironmentOptions :=
  let parsed : Option GoError × ControllerEnvironmentOptions :=
    if o.SourceURL ≠ [] then
      match s.parseGitURL o.SourceURL with
      | .error err => (some err, o)
      | .ok gitInfo =>
        let o := if o.GitServerURL = [] then { o with GitServerURL := gitInfo.ProviderURL } else o
        let o := if o.GitOwner = [] then { o with GitOwner := gitInfo.Organisation } else o
        let o := if o.GitRepo = [] then { o with GitRepo := gitInfo.Name } else o
        (none, o)
    else (none, o)
  match parsed with
  | (some err, o) => (some err, o)
  | (none, o) =>
    let o := if o.GitServerURL = [] then { o with GitServerURL := s.getenv (str "GIT_SERVER_URL") }
      else o
    if o.GitServerURL = [] then (some (MissingOption (str "git-server-url")), o)
    else
      let o := if o.GitOwner = [] then { o with GitOwner := s.getenv (str "OWNER") } else o
      if o.GitOwner = [] then (some (MissingOption (str "owner")), o)
      else
        let o := if o.GitRepo = [] then { o with GitRepo := s.getenv (str "REPO") } else o
        if o.GitRepo = [] then (some (MissingOption (str "repo")), o)
        else (none, o)

/-- Lines 138 to 155 of `Run`: the branch, the webhook URL and the source URL. -/
def resolveEndpoints (s : Startup) (o : ControllerEnvironmentOptions) :
    Option GoError × ControllerEnvironmentOptions :=
  let o :=
    if o.Branch = [] then
      let o := { o with Branch := s.getenv (str "BRANCH") }
      if o.Branch = [] then { o with Branch := str "master" } else o
    else o
  let hook : Option GoError × ControllerEnvironmentOptions :=
    if o.WebHookURL = [] then
      let o := { o with WebHookURL := s.getenv (str "WEBHOOK_URL") }
      if o.WebHookURL = [] then
        match s.discoverWebHookURL with
        | .error err => (some err, o)
        | .ok u => (none, { o with WebHookURL := u })
      else (none, o)
    else (none, o)
  match hook with
  | (some err, o) => (some err, o)
  | (none, o) =>
    if o.SourceURL = [] then
      (none, { o with SourceURL := s.urlJoin [o.GitServerURL, o.GitOwner, o.GitRepo] })
    else (none, o)

/-- Go `strconv.Itoa`. -/
def itoa (n : Int) : GoString := str (toString n)

/-- Lines 157 to 182 of `Run`: the secret, the git credentials, the webhook, the server. -/
def provisionAndServe (s : Startup) (o : ControllerEnvironmentOptions) :
    Option GoError × ControllerEnvironmentOptions × List Call :=
  match loadOrCreateHmacSecret s.cluster s.tokens o with
  | (.error err, o, calls) =>
    (some (Wrapf err (str "loading hmac secret")), { o with secret := [] }, calls)
  | (.ok secret, o, calls) =>
    let o := { o with secret := secret }
    let init : Option GoError × List Call :=
      if !o.NoGitCredeentialsInit then (s.initGitConfigAndUser, [Call.initGitConfigAndUser])
      else (none, [])
    match init with
    | (some err, initCalls) => (some err, o, calls ++ initCalls)
    | (none, initCalls) =>
      let reg : Option GoError × List Call :=
        if !o.NoRegisterWebHook then
          let out := registerWebHook s o o.WebHookURL o.secret
          (out.1, Call.registerWebHook o.WebHookURL o.secret :: out.2)
        else (none, [])
      match reg with
      | (some err, regCalls) => (some err, o, calls ++ initCalls ++ regCalls)
      | (none, regCalls) =>
        let addr := str ":" ++ itoa o.Port
        (some (s.listenAndServe addr), o,
          calls ++ initCalls ++ regCalls ++ [Call.listenAndServe addr o.Path])

/-- The source function `Run`: the error it returns, the options as it leaves them, and the
calls it made on its collaborators, in order. -/
def Run (s : Startup) (o : ControllerEnvironmentOptions) :
    Option GoError × ControllerEnvironmentOptions × List Call :=
  match resolveRepository s o with
  | (some err, o) => (some err, o, [])
  | (none, o) =>
    match resolveEndpoints s o with
    | (some err, o) => (some err, o, [])
    | (none, o) => provisionAndServe s o

/-! ## Example requests -/

/-- A POST with a signature header and the JSON content type. -/
def postRequest (sig : GoString) (payload : Bytes) : Request :=
  ⟨MethodPost,
    ⟨[(str "X-Hub-Signature", [sig]), (str "Content-Type", [str "application/json"])]⟩,
    ⟨payload, none, false, false⟩⟩

/-- A GET with no header and an empty body. -/
def getRequest : Request := ⟨MethodGet, ⟨[]⟩, ⟨[], none, false, false⟩⟩

/-- A POST with the content type "text/plain" and no other header: no signature, no event
type, no delivery id. -/
def unsignedPlainPost : Request :=
  ⟨MethodPost, ⟨[(str "Content-Type", [str "text/plain"])]⟩, ⟨str "{}", none, false, false⟩⟩

/-- Options of a controller for the repository "https://github.com/acme/env". -/
def exampleOptions : ControllerEnvironmentOptions :=
  { CommonOptions := ⟨str "tekton-bot", [], false⟩
    BindAddress := []
    Path := str "/"
    Port := 8080
    NoGitCredeentialsInit := false
    NoRegisterWebHook := false
    GitServerURL := str "https://github.com"
    GitOwner := str "acme"
    GitRepo := str "env"
    SourceURL := str "https://github.com/acme/env"
    WebHookURL := str "https://hook.example.com"
    Branch := str "staging"
    Labels := [(str "team", str "a"), (str "tier", str "b")]
    secret := str "s3cr3t" }

/-- Collaborators that all succeed; the map is ranged over in the order stored. -/
def exampleCollaborators : Collaborators :=
  { stepGitCredentialsRun := fun _ => none
    createTaskRun := fun _ => .ok []
    jsonMarshal := fun _ => .ok (str "\x7b\"resources\":[]\x7d")
    rangeOrder := fun m => m
    rangeOrder_perm := fun m => List.Perm.refl m }

/-- A secret that holds a value under the key "hmac". -/
def populatedSecret : Secret :=
  ⟨environmentControllerHmacSecret, some [(environmentControllerHmacSecretKey, str "s3cr3t")]⟩

/-- A secret that exists without data. -/
def emptySecret : Secret := ⟨environmentControllerHmacSecret, none⟩

/-- A token source that yields the letter "a" as often as asked. -/
def exampleTokens : TokenSource :=
  { generate := fun n => .ok (List.replicate n 97)
    generate_length := fun n t h => by
      cases h
      exact List.length_replicate n 97 }

/-- A cluster in namespace "jx" whose `Get` finds the given secret and whose `Update`
answers with the given reply; `Create` answers with the secret it was sent. -/
def exampleCluster (found : Secret) (reply : Secret → Secret) : Cluster :=
  { kubeClientAndNamespace := .ok (str "jx")
    secretGet := fun _ => .ok found
    secretUpdate := fun s => .ok (reply s)
    secretCreate := fun s => .ok s }

/-- A startup environment in which every collaborator succeeds. -/
def exampleStartup : Startup :=
  { parseGitURL := fun _ => .ok ⟨str "https://github.com", str "acme", str "env"⟩
    getenv := fun _ => []
    discoverWebHookURL := .ok (str "https://hook.example.com")
    cluster := exampleCluster populatedSecret (fun s => s)
    tokens := exampleTokens
    initGitConfigAndUser := none
    gitProviderForURL := fun _ => none
    createWebHook := fun _ => none
    urlJoin := fun parts => (parts.intersperse (str "/")).flatten
    listenAndServe := fun _ => str "http: Server closed" }

/-- A command line that asks for no webhook registration. -/
def noRegisterCommandLine : List (GoString × FlagValue) :=
  [(str "source-url", .string (str "https://github.com/acme/env")),
   (str "webhook-url", .string (str "https://hook.example.com")),
   (str "no-register-webhook", .bool true)]

/-! ## Lemmas on the signature verifier -/

set_option maxRecDepth 100000 in
/-- Each byte survives encoding to two hex digits and decoding them. -/
theorem hex_byte_roundtrip : ∀ v : Nat, v < 256 →
    (fromHexChar (hextable.getD (v >>> 4) 0) = some (v >>> 4) ∧
     fromHexChar (hextable.getD (v &&& 0x0f) 0) = some (v &&& 0x0f)) ∧
    (((v >>> 4) <<< 4) ||| (v &&& 0x0f)) % 256 = v := by
  decide

/-- Decoding an encoding gives the bytes back. -/
theorem hexDecode_encode (bs : Bytes) :
    hexDecodeString (hexEncodeToString bs) = some (bs.map (fun b => b % 256)) := by
  induction bs with
  | nil => rfl
  | cons v rest ih =>
    have h := hex_byte_roundtrip (v % 256) (Nat.mod_lt _ (by norm_num))
    simp only [hexEncodeToString, hexDecodeString, h.1.1, h.1.2, ih, h.2, List.map_cons]

theorem foldl_lor_zero (l : List Nat) (h : ∀ d ∈ l, d = 0) :
    l.foldl (fun v d => v ||| d) 0 = 0 := by
  induction l with
  | nil => rfl
  | cons a t ih =>
    have ha : a = 0 := h a (by simp)
    subst ha
    simpa using ih (fun d hd => h d (by simp [hd]))

theorem zipWith_xor_mod_self (l : List Nat) :
    ∀ d ∈ List.zipWith (fun a b => (a % 256) ^^^ (b % 256)) (l.map (fun b => b % 256)) l,
      d = 0 := by
  induction l with
  | nil => simp
  | cons a t ih =>
    intro d hd
    simp only [List.map_cons, List.zipWith_cons_cons, List.mem_cons] at hd
    rcases hd with hd | hd
    · subst hd; simp
    · exact ih d hd

theorem constantTimeCompare_mod_self (l : Bytes) :
    constantTimeCompare (l.map (fun b => b % 256)) l = 1 := by
  unfold constantTimeCompare
  rw [foldl_lor_zero _ (zipWith_xor_mod_self l)]
  simp [constantTimeByteEq]

theorem hasPrefix_append (pre s : GoString) : hasPrefix (pre ++ s) pre = true := by
  simp [hasPrefix]

/-- Verification accepts what signing produces. -/
theorem validatePayload_sign (payload key : Bytes) :
    ValidatePayload payload (PayloadSignature payload key) key = some true := by
  have hlen : (str "sha1=").length = 5 := by decide
  simp only [ValidatePayload, PayloadSignature, hasPrefix_append, Bool.not_true]
  have hs : sliceFrom (str "sha1=" ++ hexEncodeToString (hmacSha1 key payload)) 5
      = some (hexEncodeToString (hmacSha1 key payload)) := by
    unfold sliceFrom
    rw [if_pos (by simp [hlen])]
    rw [← hlen, List.drop_left]
  simp [hs, hexDecode_encode, hmacEqual, constantTimeCompare_mod_self]

set_option maxRecDepth 1000000 in
/-- The model of HMAC-SHA1 reproduces a published test vector
(key "key", message "The quick brown fox jumps over the lazy dog"). -/
theorem hmacSha1_test_vector :
    hmacSha1 (str "key") (str "The quick brown fox jumps over the lazy dog")
      = [0xde, 0x7c, 0x9b, 0x85, 0xb8, 0xb7, 0x8a, 0xa6, 0xbc, 0x8a,
         0x7a, 0x36, 0xf7, 0x0a, 0x90, 0x70, 0x1c, 0x9d, 0xb4, 0xd9] := by
  rfl

/-- The digest of HMAC-SHA1 has 20 bytes. -/
theorem hmacSha1_length (key payload : Bytes) : (hmacSha1 key payload).length = 20 := by
  simp [hmacSha1, sha1, be32]

/-- The verifier never panics: the slice `sig[5:]` is taken only of a header that starts
with the five bytes of the scheme. -/
theorem validatePayload_total (payload : Bytes) (sig : GoString) (key : Bytes) :
    ∃ b, ValidatePayload payload sig key = some b := by
  unfold ValidatePayload
  by_cases hp : hasPrefix sig (str "sha1=") = true
  · have hlen : 5 ≤ sig.length := by
      have h5 : (str "sha1=").length = 5 := by decide
      simp only [hasPrefix, Bool.and_eq_true, decide_eq_true_eq, h5] at hp
      exact hp.1
    simp only [hp, Bool.not_true, sliceFrom, hlen, if_true]
    cases hexDecodeString (List.drop 5 sig) <;> simp
  · simp [hp]

/-- A header without the scheme is rejected. -/
theorem validatePayload_no_scheme (payload : Bytes) (sig : GoString) (key : Bytes)
    (h : ¬ (str "sha1=") <+: sig) : ValidatePayload payload sig key = some false := by
  have hp : hasPrefix sig (str "sha1=") = false := by
    by_contra hc
    have hc1 : hasPrefix sig (str "sha1=") = true := by simpa using hc
    simp only [hasPrefix, Bool.and_eq_true, decide_eq_true_eq] at hc1
    exact h ⟨sig.drop (str "sha1=").length, by
      conv_rhs => rw [← List.take_append_drop (str "sha1=").length sig]
      rw [hc1.2]⟩
  simp [ValidatePayload, hp]

/-- A text that is not an even number of hex digits does not decode. -/
theorem hexDecode_invalid : (s : GoString) →
    (s.length % 2 = 1 ∨ ∃ c ∈ s, fromHexChar c = none) → hexDecodeString s = none
  | [], h => by simp at h
  | [_], _ => rfl
  | p :: q :: rest, h => by
    unfold hexDecodeString
    cases hp : fromHexChar p with
    | none => rfl
    | some a =>
      cases hq : fromHexChar q with
      | none => rfl
      | some b =>
        have hrest : rest.length % 2 = 1 ∨ ∃ c ∈ rest, fromHexChar c = none := by
          rcases h with h | ⟨c, hc, hn⟩
          · left
            simp only [List.length_cons] at h
            omega
          · simp only [List.mem_cons] at hc
            rcases hc with hc | hc | hc
            · subst hc; rw [hp] at hn; cases hn
            · subst hc; rw [hq] at hn; cases hn
            · exact Or.inr ⟨c, hc, hn⟩
        simp only [hexDecode_invalid rest hrest]

/-- A header whose text after the scheme is not valid hex is rejected. -/
theorem validatePayload_bad_hex (payload : Bytes) (sig : GoString) (key : Bytes)
    (h : (sig.drop 5).length % 2 = 1 ∨ ∃ c ∈ sig.drop 5, fromHexChar c = none) :
    ValidatePayload payload sig key = some false := by
  unfold ValidatePayload
  by_cases hp : hasPrefix sig (str "sha1=") = true
  · have hlen : 5 ≤ sig.length := by
      have h5 : (str "sha1=").length = 5 := by decide
      simp only [hasPrefix, Bool.and_eq_true, decide_eq_true_eq, h5] at hp
      exact hp.1
    simp only [hp, Bool.not_true, sliceFrom, hlen, if_true, hexDecode_invalid _ h]
    simp
  · simp [hp]

/-! ## Lemmas on the webhook request validator -/

theorem methodPost_ne_methodGet : MethodPost ≠ MethodGet := by decide

theorem validateWebhook_get (w : ResponseWriter) (r : Request) (secret : Bytes) (req : Bool)
    (h : r.Method = MethodGet) :
    ValidateWebhook w r secret req = some ⟨[], [], none, false, StatusOK, w, r.closeBody, []⟩ := by
  simp [ValidateWebhook, validateWebhookBody, h]

theorem status_httpError (w : ResponseWriter) (msg : GoString) (code : Nat)
    (hw : w.status = none) : (httpError w msg code).status = some code := by
  simp [httpError, ResponseWriter.Write, ResponseWriter.WriteHeader, ResponseWriter.setHeader, hw]

theorem rejectWebhook_rejected (w : ResponseWriter) (r : Request) (code : Nat)
    (msg : GoString) : RejectedWith w (rejectWebhook w r code msg) code :=
  ⟨rfl, rfl, fun hw => by simp [rejectWebhook, responseHTTPError, status_httpError, hw]⟩

/-- The request after `ioutil.ReadAll` went over its body. -/
theorem readAll_snd (b : Body) : b.readAll.2 = { b with read := true } := by
  unfold Body.readAll
  cases b.readErr <;> rfl

/-- What `validateSigned` returns, case by case. -/
theorem validateSigned_cases (w : ResponseWriter) (r : Request) (secret : Bytes)
    (et eg : GoString) :
    ∃ v, validateSigned w r secret et eg = some v ∧
      ((r.Header.Get (str "X-Hub-Signature") = [] ∧ RejectedWith w v 403) ∨
       (r.Header.Get (str "X-Hub-Signature") ≠ [] ∧
          r.Header.Get (str "content-type") ≠ str "application/json" ∧ RejectedWith w v 400) ∨
       (r.Header.Get (str "X-Hub-Signature") ≠ [] ∧
          r.Header.Get (str "content-type") = str "application/json" ∧
          r.Body.readErr ≠ none ∧ RejectedWith w v 500) ∨
       (r.Header.Get (str "X-Hub-Signature") ≠ [] ∧
          r.Header.Get (str "content-type") = str "application/json" ∧
          r.Body.readErr = none ∧
          ValidatePayload r.Body.content (r.Header.Get (str "X-Hub-Signature")) secret
            = some false ∧ RejectedWith w v 403) ∨
       (r.Header.Get (str "X-Hub-Signature") ≠ [] ∧
          r.Header.Get (str "content-type") = str "application/json" ∧
          r.Body.readErr = none ∧
          ValidatePayload r.Body.content (r.Header.Get (str "X-Hub-Signature")) secret
            = some true ∧
          v = ⟨et, eg, some r.Body.content, true, StatusOK, w,
            { r with Body := { r.Body with read := true } }, []⟩)) := by
  by_cases hsig : r.Header.Get (str "X-Hub-Signature") = []
  · have heq : validateSigned w r secret et eg = some (rejectWebhook w r StatusForbidden
        (str "403 Forbidden: Missing X-Hub-Signature")) := by
      simp only [validateSigned, hsig, if_true]
    exact ⟨_, heq, Or.inl ⟨hsig, rejectWebhook_rejected w r _ _⟩⟩
  · by_cases hct : r.Header.Get (str "content-type") = str "application/json"
    · cases hre : r.Body.readErr with
      | some e =>
        have heq : validateSigned w r secret et eg = some (rejectWebhook w
            { r with Body := { r.Body with read := true } } StatusInternalServerError
            (str "500 Internal Server Error: Failed to read request body")) := by
          simp only [validateSigned, hsig, hct, if_false, ne_eq, not_true, readAll_snd,
            Body.readAll, hre]
        exact ⟨_, heq, Or.inr (Or.inr (Or.inl
          ⟨hsig, hct, by simp, rejectWebhook_rejected w _ _ _⟩))⟩
      | none =>
        obtain ⟨b, hb⟩ := validatePayload_total r.Body.content
          (r.Header.Get (str "X-Hub-Signature")) secret
        cases b with
        | false =>
          have heq : validateSigned w r secret et eg = some (rejectWebhook w
              { r with Body := { r.Body with read := true } } StatusForbidden
              (str "403 Forbidden: Invalid X-Hub-Signature")) := by
            simp only [validateSigned, hsig, hct, if_false, ne_eq, not_true, readAll_snd,
              Body.readAll, hre, hb]
          exact ⟨_, heq, Or.inr (Or.inr (Or.inr (Or.inl
            ⟨hsig, hct, rfl, hb, rejectWebhook_rejected w _ _ _⟩)))⟩
        | true =>
          have heq : validateSigned w r secret et eg = some
              ⟨et, eg, some r.Body.content, true, StatusOK, w,
                { r with Body := { r.Body with read := true } }, []⟩ := by
            simp only [validateSigned, hsig, hct, if_false, ne_eq, not_true, readAll_snd,
              Body.readAll, hre, hb]
          exact ⟨_, heq, Or.inr (Or.inr (Or.inr (Or.inr ⟨hsig, hct, rfl, hb, rfl⟩)))⟩
    · have heq : validateSigned w r secret et eg = some (rejectWebhook w r StatusBadRequest
          (str "400 Bad Request: Hook only accepts content-type: application/json - please reconfigure this hook on GitHub")) := by
        simp only [validateSigned, hsig, hct, if_false, ne_eq, not_false_eq_true, if_true]
      exact ⟨_, heq, Or.inr (Or.inl ⟨hsig, hct, rejectWebhook_rejected w r _ _⟩)⟩

theorem signedOutcome_of_validateSigned (w : ResponseWriter) (r : Request) (secret : Bytes)
    (et eg : GoString) :
    ∃ v, validateSigned w r secret et eg = some v ∧
      SignedOutcome w r secret et eg { v with r := v.r.closeBody } := by
  obtain ⟨v, hv, h⟩ := validateSigned_cases w r secret et eg
  refine ⟨v, hv, ?_⟩
  rcases h with h | h | h | h | h
  · exact Or.inl ⟨h.1, h.2⟩
  · exact Or.inr (Or.inl ⟨h.1, h.2.1, h.2.2⟩)
  · exact Or.inr (Or.inr (Or.inl ⟨h.1, h.2.1, h.2.2.1, h.2.2.2⟩))
  · exact Or.inr (Or.inr (Or.inr (Or.inl ⟨h.1, h.2.1, h.2.2.1, h.2.2.2.1, h.2.2.2.2⟩)))
  · refine Or.inr (Or.inr (Or.inr (Or.inr ⟨h.1, h.2.1, h.2.2.1, h.2.2.2.1, ?_⟩)))
    rw [h.2.2.2.2]
    rfl

/-- What `ValidateWebhook` returns, case by case, in the order of its checks. -/
theorem validateWebhook_cases (w : ResponseWriter) (r : Request) (secret : Bytes)
    (req : Bool) :
    ∃ v, ValidateWebhook w r secret req = some v ∧
      ((r.Method = MethodGet ∧ v = ⟨[], [], none, false, StatusOK, w, r.closeBody, []⟩) ∨
       (r.Method ≠ MethodGet ∧ r.Method ≠ MethodPost ∧ RejectedWith w v 405) ∨
       (r.Method = MethodPost ∧ req = true ∧
          (r.Header.Get (str "X-GitHub-Event") = [] ∨
            r.Header.Get (str "X-GitHub-Delivery") = []) ∧ RejectedWith w v 400) ∨
       (r.Method = MethodPost ∧
          ¬ (req = true ∧ (r.Header.Get (str "X-GitHub-Event") = [] ∨
            r.Header.Get (str "X-GitHub-Delivery") = [])) ∧
          SignedOutcome w r secret
            (if r.Header.Get (str "X-GitHub-Event") = [] then str "push"
              else r.Header.Get (str "X-GitHub-Event"))
            (r.Header.Get (str "X-GitHub-Delivery")) v)) := by
  by_cases hget : r.Method = MethodGet
  · exact ⟨_, validateWebhook_get w r secret req hget, Or.inl ⟨hget, rfl⟩⟩
  · by_cases hpost : r.Method = MethodPost
    · by_cases hreq : req = true
      · by_cases het : r.Header.Get (str "X-GitHub-Event") = []
        · refine ⟨_, ?_, Or.inr (Or.inr (Or.inl ⟨hpost, hreq, Or.inl het,
            rejectWebhook_rejected w r.closeBody StatusBadRequest
              (str "400 Bad Request: Missing X-GitHub-Event Header")⟩))⟩
          simp [ValidateWebhook, validateWebhookBody, hget, hpost, methodPost_ne_methodGet, hreq, het, rejectWebhook]
        · by_cases heg : r.Header.Get (str "X-GitHub-Delivery") = []
          · refine ⟨_, ?_, Or.inr (Or.inr (Or.inl ⟨hpost, hreq, Or.inr heg,
              rejectWebhook_rejected w r.closeBody StatusBadRequest
                (str "400 Bad Request: Missing X-GitHub-Delivery Header")⟩))⟩
            simp [ValidateWebhook, validateWebhookBody, hget, hpost, methodPost_ne_methodGet, hreq, het, heg,
              rejectWebhook]
          · obtain ⟨v, hv, h⟩ := signedOutcome_of_validateSigned w r secret
              (r.Header.Get (str "X-GitHub-Event")) (r.Header.Get (str "X-GitHub-Delivery"))
            refine ⟨{ v with r := v.r.closeBody }, ?_, Or.inr (Or.inr (Or.inr ⟨hpost, by simp [het, heg], ?_⟩))⟩
            · simp [ValidateWebhook, validateWebhookBody, hget, hpost, methodPost_ne_methodGet, hreq, het, heg, hv]
            · simpa [het] using h
      · have hreq1 : req = false := by simpa using hreq
        by_cases het : r.Header.Get (str "X-GitHub-Event") = []
        · obtain ⟨v, hv, h⟩ := signedOutcome_of_validateSigned w r secret
            (str "push") (r.Header.Get (str "X-GitHub-Delivery"))
          refine ⟨{ v with r := v.r.closeBody }, ?_, Or.inr (Or.inr (Or.inr ⟨hpost, by simp [hreq1], ?_⟩))⟩
          · simp [ValidateWebhook, validateWebhookBody, hget, hpost, methodPost_ne_methodGet, hreq1, het, hv]
          · simpa [het] using h
        · obtain ⟨v, hv, h⟩ := signedOutcome_of_validateSigned w r secret
            (r.Header.Get (str "X-GitHub-Event")) (r.Header.Get (str "X-GitHub-Delivery"))
          refine ⟨{ v with r := v.r.closeBody }, ?_, Or.inr (Or.inr (Or.inr ⟨hpost, by simp [hreq1], ?_⟩))⟩
          · simp [ValidateWebhook, validateWebhookBody, hget, hpost, methodPost_ne_methodGet, hreq1, het, hv]
          · simpa [het] using h
    · refine ⟨_, ?_, Or.inr (Or.inl ⟨hget, hpost,
        rejectWebhook_rejected w r.closeBody StatusMethodNotAllowed
          (str "405 Method not allowed")⟩)⟩
      simp [ValidateWebhook, validateWebhookBody, hget, hpost, methodPost_ne_methodGet, rejectWebhook]

/-! ## Lemmas on the trigger endpoint -/

/-- An accepted request has a non-empty event type. -/
theorem eventType_ne_nil_of_valid (w : ResponseWriter) (r : Request) (secret : Bytes)
    (req : Bool) (v : Validated) (hv : ValidateWebhook w r secret req = some v)
    (hvalid : v.valid = true) : v.eventType ≠ [] := by
  obtain ⟨v1, hv1, h⟩ := validateWebhook_cases w r secret req
  rw [hv] at hv1
  cases hv1
  have hpush : str "push" ≠ [] := by decide
  rcases h with h | h | h | h
  · rw [h.2] at hvalid; cases hvalid
  · rw [h.2.2.1] at hvalid; cases hvalid
  · rw [h.2.2.2.1] at hvalid; cases hvalid
  · obtain ⟨_, hreq, hs⟩ := h
    rcases hs with hs | hs | hs | hs | hs
    · rw [hs.2.1] at hvalid; cases hvalid
    · rw [hs.2.2.1] at hvalid; cases hvalid
    · rw [hs.2.2.2.1] at hvalid; cases hvalid
    · rw [hs.2.2.2.2.1] at hvalid; cases hvalid
    · rw [hs.2.2.2.2]
      by_cases het : r.Header.Get (str "X-GitHub-Event") = []
      · simp [het, hpush]
      · simp [het]

theorem handleRequests_of_invalid (c : Collaborators) (o : ControllerEnvironmentOptions)
    (w : ResponseWriter) (r : Request) (v : Validated)
    (hv : ValidateWebhook w r o.secret false = some v) (hvalid : v.valid = false) :
    handleRequests c o w r = some ⟨v.w, v.r, [], [], [], [], v.log⟩ := by
  simp [handleRequests, hv, hvalid]

theorem handleRequests_of_valid (c : Collaborators) (o : ControllerEnvironmentOptions)
    (w : ResponseWriter) (r : Request) (v : Validated)
    (hv : ValidateWebhook w r o.secret false = some v) (hvalid : v.valid = true) :
    handleRequests c o w r = some { startPipelineRun c o v.w v.r with debug := v.log } := by
  have hne := eventType_ne_nil_of_valid w r o.secret false v hv hvalid
  simp [handleRequests, hv, hvalid, hne]

/-- The pipeline step is invoked once per call of `startPipelineRun`, whatever the
collaborators answer. -/
theorem startPipelineRun_pipelineRuns (c : Collaborators) (o : ControllerEnvironmentOptions)
    (w : ResponseWriter) (r : Request) :
    (startPipelineRun c o w r).pipelineRuns = [pipelineRequest c o] := by
  unfold startPipelineRun
  cases h1 : c.createTaskRun (pipelineRequest c o) with
  | error e => simp only [h1, returnError]
  | ok res =>
    cases h2 : c.jsonMarshal res with
    | error e => simp only [h1, h2, returnError]
    | ok d => simp only [h1, h2]

/-- The loop over the label map appends one entry per label and touches nothing else. -/
theorem foldl_customLabels (l : List (GoString × GoString)) (pr : StepCreateTaskOptions) :
    l.foldl (fun pr kv =>
        { pr with CustomLabels := pr.CustomLabels ++ [sprintfKeyValue kv.1 kv.2] }) pr
      = { pr with CustomLabels :=
            pr.CustomLabels ++ l.map (fun kv => sprintfKeyValue kv.1 kv.2) } := by
  induction l generalizing pr with
  | nil => simp
  | cons kv t ih => simp [List.foldl_cons, ih]

/-- The request `startPipelineRun` builds, field by field. -/
theorem pipelineRequest_eq (c : Collaborators) (o : ControllerEnvironmentOptions) :
    pipelineRequest c o =
      { CommonOptions := some o.CommonOptions
        PipelineKind := str "release"
        SourceName := str "source"
        Duration := 20000000000
        Trigger := str "manual"
        CloneGitURL := o.SourceURL
        DeleteTempDir := true
        Branch := o.Branch
        Revision := str "master"
        ServiceAccount := o.CommonOptions.ServiceAccount
        CustomLabels := (c.rangeOrder o.Labels).map (fun kv => kv.1 ++ str "=" ++ kv.2) } := by
  unfold pipelineRequest
  rw [foldl_customLabels]
  simp [StepCreateTaskOptions.zero, sprintfKeyValue, PipelineKindRelease,
    PipelineTriggerTypeManual, timeSecond]

theorem postRequest_signature (sig : GoString) (payload : Bytes) :
    (postRequest sig payload).Header.Get (str "X-Hub-Signature") = sig := by
  have h1 : CanonicalMIMEHeaderKey (str "X-Hub-Signature") = str "X-Hub-Signature" := by
    decide
  simp [postRequest, Header.Get, h1, List.lookup]

theorem postRequest_contentType (sig : GoString) (payload : Bytes) :
    (postRequest sig payload).Header.Get (str "content-type") = str "application/json" := by
  have h1 : CanonicalMIMEHeaderKey (str "content-type") = str "Content-Type" := by decide
  have h2 : (str "Content-Type" == str "X-Hub-Signature") = false := by decide
  simp [postRequest, Header.Get, h1, h2, List.lookup]

theorem postRequest_event (sig : GoString) (payload : Bytes) :
    (postRequest sig payload).Header.Get (str "X-GitHub-Event") = [] := by
  have h1 : CanonicalMIMEHeaderKey (str "X-GitHub-Event") = str "X-Github-Event" := by decide
  have h2 : (str "X-Github-Event" == str "X-Hub-Signature") = false := by decide
  have h3 : (str "X-Github-Event" == str "Content-Type") = false := by decide
  simp [postRequest, Header.Get, h1, h2, h3, List.lookup]

theorem postRequest_delivery (sig : GoString) (payload : Bytes) :
    (postRequest sig payload).Header.Get (str "X-GitHub-Delivery") = [] := by
  have h1 : CanonicalMIMEHeaderKey (str "X-GitHub-Delivery") = str "X-Github-Delivery" := by
    decide
  have h2 : (str "X-Github-Delivery" == str "X-Hub-Signature") = false := by decide
  have h3 : (str "X-Github-Delivery" == str "Content-Type") = false := by decide
  simp [postRequest, Header.Get, h1, h2, h3, List.lookup]

theorem payloadSignature_ne_nil (payload key : Bytes) : PayloadSignature payload key ≠ [] := by
  have h : str "sha1=" = 115 :: [104, 97, 49, 61] := by decide
  simp [PayloadSignature, h]

/-- A one-byte signature is not the 20-byte digest. -/
theorem validatePayload_short (payload key : Bytes) :
    ValidatePayload payload (str "sha1=00") key = some false := by
  have h1 : hasPrefix (str "sha1=00") (str "sha1=") = true := by decide
  have h2 : sliceFrom (str "sha1=00") 5 = some (str "00") := by decide
  have h3 : hexDecodeString (str "00") = some [0] := by decide
  simp [ValidatePayload, h1, h2, h3, hmacEqual, constantTimeCompare, hmacSha1_length]

/-! ## Claims -/

/-- C1: for every payload and every key, `ValidatePayload` applied to the payload, the
header `PayloadSignature` produces for that payload and key, and the same key returns
true (and does not panic). -/
theorem C1_verify_accepts_own_signature (payload key : Bytes) :
    ValidatePayload payload (PayloadSignature payload key) key = some true :=
  validatePayload_sign payload key

/-- C5: for every payload and key, `ValidatePayload` returns false, and does not panic,
whenever the signature header does not start with "sha1=", and whenever the text after
these five bytes has an odd length or holds a byte that is not a hex digit. -/
theorem C5_malformed_signature_rejected (payload : Bytes) (sig : GoString) (key : Bytes)
    (h : ¬ (str "sha1=") <+: sig ∨
      ((sig.drop 5).length % 2 = 1 ∨ ∃ c ∈ sig.drop 5, fromHexChar c = none)) :
    ValidatePayload payload sig key = some false := by
  rcases h with h | h
  · exact validatePayload_no_scheme payload sig key h
  · exact validatePayload_bad_hex payload sig key h

/-- C5, at a header with the scheme and a three-digit text. -/
theorem C5_malformed_signature_rejected_witness :
    ValidatePayload (str "{}") (str "sha1=abc") (str "k") = some false :=
  C5_malformed_signature_rejected (str "{}") (str "sha1=abc") (str "k")
    (Or.inr (Or.inl (by decide)))

/-- C2: a POST that carries a signature header and the content type "application/json",
whose body can be read and whose signature does not verify against the body and the
controller's secret, is answered by `handleRequests` with status 403 and no invocation of
the pipeline step; and whenever `handleRequests` invokes the pipeline step,
`ValidateWebhook` returned isValid = true. -/
theorem C2_invalid_signature_forbidden (c : Collaborators) (o : ControllerEnvironmentOptions)
    (w : ResponseWriter) (r : Request) :
    (r.Method = MethodPost → r.Header.Get (str "X-Hub-Signature") ≠ [] →
      r.Header.Get (str "content-type") = str "application/json" →
      r.Body.readErr = none →
      ValidatePayload r.Body.content (r.Header.Get (str "X-Hub-Signature")) o.secret
        ≠ some true →
      w.status = none →
      ∃ h, handleRequests c o w r = some h ∧ h.w.status = some 403 ∧ h.pipelineRuns = []) ∧
    (∀ h, handleRequests c o w r = some h → h.pipelineRuns ≠ [] →
      ∃ v, ValidateWebhook w r o.secret false = some v ∧ v.valid = true) := by
  obtain ⟨v, hv, hcases⟩ := validateWebhook_cases w r o.secret false
  constructor
  · intro hpost hsig hct hbody hbad hw
    have hrej : RejectedWith w v 403 := by
      rcases hcases with h | h | h | h
      · exact absurd (hpost.symm.trans h.1) methodPost_ne_methodGet
      · exact absurd hpost h.2.1
      · exact absurd h.2.1 (by simp)
      · rcases h.2.2 with hs | hs | hs | hs | hs
        · exact absurd hs.1 hsig
        · exact absurd hct hs.2.1
        · exact absurd hbody hs.2.2.1
        · exact hs.2.2.2.2
        · exact absurd hs.2.2.2.1 hbad
    refine ⟨_, handleRequests_of_invalid c o w r v hv hrej.1, ?_, rfl⟩
    exact hrej.2.2 hw
  · intro h hh hruns
    refine ⟨v, hv, ?_⟩
    by_contra hnv
    have hfalse : v.valid = false := by simpa using hnv
    rw [handleRequests_of_invalid c o w r v hv hfalse] at hh
    cases hh
    exact hruns rfl

/-- C2, at a POST whose signature is one zero byte. -/
theorem C2_invalid_signature_forbidden_witness :
    ∃ h, handleRequests exampleCollaborators exampleOptions ResponseWriter.fresh
        (postRequest (str "sha1=00") (str "{}")) = some h ∧
      h.w.status = some 403 ∧ h.pipelineRuns = [] :=
  (C2_invalid_signature_forbidden exampleCollaborators exampleOptions ResponseWriter.fresh
    (postRequest (str "sha1=00") (str "{}"))).1 rfl
    (by rw [postRequest_signature]; decide)
    (postRequest_contentType _ _) rfl
    (by
      rw [postRequest_signature]
      have h := validatePayload_short (str "{}") exampleOptions.secret
      show ValidatePayload (str "{}") (str "sha1=00") exampleOptions.secret ≠ some true
      rw [h]
      decide)
    rfl

/-- C3: for a request whose body can be read, `ValidateWebhook` returns isValid = true
exactly when the method is POST, (if the GitHub headers are required) both X-GitHub-Event
and X-GitHub-Delivery are non-empty, X-Hub-Signature is non-empty, the content-type header
is exactly "application/json" and `ValidatePayload` accepts the body; then the status is
200, the payload is the body, the delivery id is the X-GitHub-Delivery header, and the
event type is the X-GitHub-Event header, or "push" when that header is absent and the
headers are not required. -/
theorem C3_validateWebhook_accepts_iff (w : ResponseWriter) (r : Request) (hmacSecret : Bytes)
    (requireGitHubHeaders : Bool) (hbody : r.Body.readErr = none) :
    ∃ v, ValidateWebhook w r hmacSecret requireGitHubHeaders = some v ∧
      (v.valid = true ↔
        (r.Method = MethodPost ∧
         (requireGitHubHeaders = true → r.Header.Get (str "X-GitHub-Event") ≠ [] ∧
            r.Header.Get (str "X-GitHub-Delivery") ≠ []) ∧
         r.Header.Get (str "X-Hub-Signature") ≠ [] ∧
         r.Header.Get (str "content-type") = str "application/json" ∧
         ValidatePayload r.Body.content (r.Header.Get (str "X-Hub-Signature")) hmacSecret
           = some true)) ∧
      (v.valid = true →
        v.status = 200 ∧ v.payload = some r.Body.content ∧
        v.eventGUID = r.Header.Get (str "X-GitHub-Delivery") ∧
        (r.Header.Get (str "X-GitHub-Event") ≠ [] →
          v.eventType = r.Header.Get (str "X-GitHub-Event")) ∧
        (r.Header.Get (str "X-GitHub-Event") = [] →
          requireGitHubHeaders = false ∧ v.eventType = str "push")) := by
  obtain ⟨v, hv, hcases⟩ := validateWebhook_cases w r hmacSecret requireGitHubHeaders
  refine ⟨v, hv, ?_⟩
  rcases hcases with h | h | h | h
  · have hval : v.valid = false := by rw [h.2]
    refine ⟨⟨fun hc => (by rw [hval] at hc; cases hc), fun hc => ?_⟩,
      fun hc => (by rw [hval] at hc; cases hc)⟩
    exact absurd (hc.1.symm.trans h.1) methodPost_ne_methodGet
  · have hval : v.valid = false := h.2.2.1
    refine ⟨⟨fun hc => (by rw [hval] at hc; cases hc), fun hc => absurd hc.1 h.2.1⟩,
      fun hc => (by rw [hval] at hc; cases hc)⟩
  · have hval : v.valid = false := h.2.2.2.1
    refine ⟨⟨fun hc => (by rw [hval] at hc; cases hc), fun hc => ?_⟩,
      fun hc => (by rw [hval] at hc; cases hc)⟩
    have hh := hc.2.1 h.2.1
    rcases h.2.2.1 with he | he
    · exact absurd he hh.1
    · exact absurd he hh.2
  · obtain ⟨hpost, hreq, hs⟩ := h
    rcases hs with hs | hs | hs | hs | hs
    · have hval : v.valid = false := hs.2.1
      exact ⟨⟨fun hc => (by rw [hval] at hc; cases hc), fun hc => absurd hs.1 hc.2.2.1⟩,
        fun hc => (by rw [hval] at hc; cases hc)⟩
    · have hval : v.valid = false := hs.2.2.1
      exact ⟨⟨fun hc => (by rw [hval] at hc; cases hc), fun hc => absurd hc.2.2.2.1 hs.2.1⟩,
        fun hc => (by rw [hval] at hc; cases hc)⟩
    · exact absurd hbody hs.2.2.1
    · have hval : v.valid = false := hs.2.2.2.2.1
      refine ⟨⟨fun hc => (by rw [hval] at hc; cases hc), fun hc => ?_⟩,
        fun hc => (by rw [hval] at hc; cases hc)⟩
      have h1 := hc.2.2.2.2
      rw [hs.2.2.2.1] at h1
      cases h1
    · have hveq := hs.2.2.2.2
      have hreq1 : requireGitHubHeaders = true → r.Header.Get (str "X-GitHub-Event") ≠ [] ∧
          r.Header.Get (str "X-GitHub-Delivery") ≠ [] := by
        intro ht
        constructor
        · intro he; exact hreq ⟨ht, Or.inl he⟩
        · intro he; exact hreq ⟨ht, Or.inr he⟩
      refine ⟨⟨fun _ => ⟨hpost, hreq1, hs.1, hs.2.1, hs.2.2.2.1⟩, fun _ => by rw [hveq]⟩,
        fun _ => ?_⟩
      rw [hveq]
      refine ⟨rfl, rfl, rfl, ?_, ?_⟩
      · intro he; simp [he]
      · intro he
        refine ⟨?_, by simp [he]⟩
        cases hr : requireGitHubHeaders with
        | false => rfl
        | true => exact absurd he (hreq1 hr).1

/-- C3, at a POST signed with the secret: the request is accepted. -/
theorem C3_validateWebhook_accepts_iff_witness :
    ∃ v, ValidateWebhook ResponseWriter.fresh
        (postRequest (PayloadSignature (str "{}") (str "s3cr3t")) (str "{}"))
        (str "s3cr3t") false = some v ∧
      v.valid = true ∧ v.status = 200 ∧ v.payload = some (str "{}") ∧
      v.eventType = str "push" := by
  obtain ⟨v, hv, hiff, hout⟩ := C3_validateWebhook_accepts_iff ResponseWriter.fresh
    (postRequest (PayloadSignature (str "{}") (str "s3cr3t")) (str "{}"))
    (str "s3cr3t") false rfl
  have hvalid : v.valid = true := by
    refine hiff.mpr ⟨rfl, fun h => (by cases h), ?_, postRequest_contentType _ _, ?_⟩
    · rw [postRequest_signature]
      exact payloadSignature_ne_nil _ _
    · rw [postRequest_signature]
      exact validatePayload_sign _ _
  have h := hout hvalid
  exact ⟨v, hv, hvalid, h.1, h.2.1, (h.2.2.2.2 (postRequest_event _ _)).2⟩

/-- A POST signed with the secret passes every check. -/
theorem validateWebhook_signed_post (w : ResponseWriter) (payload key : Bytes) :
    ValidateWebhook w (postRequest (PayloadSignature payload key) payload) key false
      = some ⟨str "push", [], some payload, true, StatusOK, w,
          ⟨MethodPost, (postRequest (PayloadSignature payload key) payload).Header,
            ⟨payload, none, true, true⟩⟩, []⟩ := by
  obtain ⟨v, hv, hcases⟩ := validateWebhook_cases w
    (postRequest (PayloadSignature payload key) payload) key false
  rw [hv]
  have hsig := postRequest_signature (PayloadSignature payload key) payload
  have hct := postRequest_contentType (PayloadSignature payload key) payload
  have hne := payloadSignature_ne_nil payload key
  rcases hcases with h | h | h | h
  · exact absurd h.1 methodPost_ne_methodGet
  · exact absurd rfl h.2.1
  · exact absurd h.2.1 (by simp)
  · rcases h.2.2 with hs | hs | hs | hs | hs
    · rw [hsig] at hs; exact absurd hs.1 hne
    · exact absurd hct hs.2.1
    · exact absurd rfl hs.2.2.1
    · have h1 := hs.2.2.2.1
      rw [hsig] at h1
      have h2 : ValidatePayload payload (PayloadSignature payload key) key = some false := h1
      rw [validatePayload_sign] at h2
      cases h2
    · rw [hs.2.2.2.2, postRequest_event, postRequest_delivery]
      rfl

/-- C4 as stated fails at two inputs.  At a GET the call returns isValid = false with
status 200 and no status is written to the response.  At a POST with no signature header
and the content type "text/plain", when the event headers are required and absent, the
call returns 400, not 403. -/
theorem C4_counterexample :
    (∃ v, ValidateWebhook ResponseWriter.fresh getRequest [] false = some v ∧
      v.valid = false ∧ v.status = 200 ∧ v.w.status ≠ some v.status) ∧
    (unsignedPlainPost.Method = MethodPost ∧
      unsignedPlainPost.Header.Get (str "X-Hub-Signature") = [] ∧
      unsignedPlainPost.Header.Get (str "content-type") ≠ str "application/json" ∧
      ∃ v, ValidateWebhook ResponseWriter.fresh unsignedPlainPost [] true = some v ∧
        v.valid = false ∧ v.status = 400 ∧ v.status ≠ 403) :=
  ⟨⟨_, validateWebhook_get ResponseWriter.fresh getRequest [] false rfl, rfl, rfl,
      by decide⟩,
    rfl, by decide, by decide,
    ⟨rejectWebhook ResponseWriter.fresh unsignedPlainPost.closeBody StatusBadRequest
        (str "400 Bad Request: Missing X-GitHub-Event Header"),
      by decide, rfl, rfl, by decide⟩⟩

/-- The status of a rejection is that of the first failing check; it is written to the
response except for a GET. -/
theorem validateWebhook_status_order (w : ResponseWriter) (r : Request) (hmacSecret : Bytes)
    (requireGitHubHeaders : Bool) :
    ∃ v, ValidateWebhook w r hmacSecret requireGitHubHeaders = some v ∧
      (v.valid = false → firstFailingCheck r hmacSecret requireGitHubHeaders = some v.status) ∧
      (v.valid = false → r.Method ≠ MethodGet → w.status = none →
        v.w.status = some v.status) ∧
      (r.Method = MethodGet → v.valid = false ∧ v.status = 200 ∧ v.w = w) ∧
      (r.Method = MethodPost →
        (requireGitHubHeaders = true → r.Header.Get (str "X-GitHub-Event") ≠ [] ∧
          r.Header.Get (str "X-GitHub-Delivery") ≠ []) →
        r.Header.Get (str "X-Hub-Signature") = [] →
        v.valid = false ∧ v.status = 403) := by
  obtain ⟨v, hv, hcases⟩ := validateWebhook_cases w r hmacSecret requireGitHubHeaders
  refine ⟨v, hv, ?_⟩
  rcases hcases with h | h | h | h
  · obtain ⟨hget, hveq⟩ := h
    subst hveq
    refine ⟨fun _ => by simp [firstFailingCheck, hget, StatusOK], fun _ hne => absurd hget hne,
      fun _ => ⟨rfl, rfl, rfl⟩, fun hpost => ?_⟩
    exact absurd (hpost.symm.trans hget) methodPost_ne_methodGet
  · obtain ⟨hget, hpost, hrej⟩ := h
    refine ⟨fun _ => by simp [firstFailingCheck, hget, hpost, hrej.2.1],
      fun _ _ hw => by rw [hrej.2.1]; exact hrej.2.2 hw,
      fun hg => absurd hg hget, fun hp => absurd hp hpost⟩
  · obtain ⟨hpost, hreq, hmiss, hrej⟩ := h
    have hget : r.Method ≠ MethodGet := by rw [hpost]; exact methodPost_ne_methodGet
    refine ⟨fun _ => by simp [firstFailingCheck, methodPost_ne_methodGet, hpost, hreq, hmiss, hrej.2.1],
      fun _ _ hw => by rw [hrej.2.1]; exact hrej.2.2 hw,
      fun hg => absurd hg hget, fun _ hh _ => ?_⟩
    rcases hmiss with he | he
    · exact absurd he (hh hreq).1
    · exact absurd he (hh hreq).2
  · obtain ⟨hpost, hreq, hs⟩ := h
    have hget : r.Method ≠ MethodGet := by rw [hpost]; exact methodPost_ne_methodGet
    rcases hs with hs | hs | hs | hs | hs
    · obtain ⟨hsig, hrej⟩ := hs
      exact ⟨fun _ => by simp [firstFailingCheck, methodPost_ne_methodGet, hpost, hreq, hsig, hrej.2.1],
        fun _ _ hw => by rw [hrej.2.1]; exact hrej.2.2 hw,
        fun hg => absurd hg hget, fun _ _ _ => ⟨hrej.1, hrej.2.1⟩⟩
    · obtain ⟨hsig, hct, hrej⟩ := hs
      exact ⟨fun _ => by simp [firstFailingCheck, methodPost_ne_methodGet, hpost, hreq, hsig, hct, hrej.2.1],
        fun _ _ hw => by rw [hrej.2.1]; exact hrej.2.2 hw,
        fun hg => absurd hg hget, fun _ _ hn => absurd hn hsig⟩
    · obtain ⟨hsig, hct, hre, hrej⟩ := hs
      exact ⟨fun _ => by simp [firstFailingCheck, methodPost_ne_methodGet, hpost, hreq, hsig, hct, hre, hrej.2.1],
        fun _ _ hw => by rw [hrej.2.1]; exact hrej.2.2 hw,
        fun hg => absurd hg hget, fun _ _ hn => absurd hn hsig⟩
    · obtain ⟨hsig, hct, hre, hvp, hrej⟩ := hs
      exact ⟨fun _ => by
          simp [firstFailingCheck, methodPost_ne_methodGet, hpost, hreq, hsig, hct, hre, hvp, hrej.2.1],
        fun _ _ hw => by rw [hrej.2.1]; exact hrej.2.2 hw,
        fun hg => absurd hg hget, fun _ _ hn => absurd hn hsig⟩
    · obtain ⟨hsig, hct, hre, hvp, hveq⟩ := hs
      subst hveq
      exact ⟨fun hc => (by cases hc), fun hc => (by cases hc),
        fun hg => absurd hg hget, fun _ _ hn => absurd hn hsig⟩

/-- C4 (amended): `ValidateWebhook` always returns; when it rejects, the status code it
returns is the one of the first failing check in the fixed order (GET 200, not POST 405,
required event or delivery header absent 400, signature header absent 403, content type
not "application/json" 400, body read failure 500, signature mismatch 403); for every
rejected request other than a GET that same status code is written to a response that
had no status yet, while for a GET the response is left as it was.  In particular a POST
with no signature header is rejected with 403 whatever its content type when the event
headers are not required or are both present, and with 400 when they are required and
one of them is absent. -/
theorem C4_rejection_status_order (w : ResponseWriter) (r : Request) (hmacSecret : Bytes)
    (requireGitHubHeaders : Bool) :
    ∃ v, ValidateWebhook w r hmacSecret requireGitHubHeaders = some v ∧
      (v.valid = false → firstFailingCheck r hmacSecret requireGitHubHeaders = some v.status) ∧
      (v.valid = false → r.Method ≠ MethodGet → w.status = none →
        v.w.status = some v.status) ∧
      (r.Method = MethodGet → v.valid = false ∧ v.status = 200 ∧ v.w = w) ∧
      (r.Method = MethodPost →
        (requireGitHubHeaders = true → r.Header.Get (str "X-GitHub-Event") ≠ [] ∧
          r.Header.Get (str "X-GitHub-Delivery") ≠ []) →
        r.Header.Get (str "X-Hub-Signature") = [] →
        v.valid = false ∧ v.status = 403) ∧
      (r.Method = MethodPost → requireGitHubHeaders = true →
        (r.Header.Get (str "X-GitHub-Event") = [] ∨
          r.Header.Get (str "X-GitHub-Delivery") = []) →
        v.valid = false ∧ v.status = 400) := by
  obtain ⟨v, hv, h1, h2, h3, h4⟩ :=
    validateWebhook_status_order w r hmacSecret requireGitHubHeaders
  obtain ⟨v1, hv1, hcases⟩ := validateWebhook_cases w r hmacSecret requireGitHubHeaders
  rw [hv] at hv1
  cases hv1
  refine ⟨v, hv, h1, h2, h3, h4, ?_⟩
  intro hpost hreq hmiss
  rcases hcases with h | h | h | h
  · exact absurd (hpost.symm.trans h.1) methodPost_ne_methodGet
  · exact absurd hpost h.2.1
  · exact ⟨h.2.2.2.1, h.2.2.2.2.1⟩
  · exact absurd ⟨hreq, hmiss⟩ h.2.1

/-- C6: for a GET, whatever its headers and body, `handleRequests` invokes neither the
pipeline step nor the git-credentials step and leaves the response as it was (no status,
no body, no header written); `ValidateWebhook` returns an empty event type, an empty
delivery id, a nil payload, isValid = false and status 200, and the body is closed but not
read. -/
theorem C6_get_probe_is_inert (c : Collaborators) (o : ControllerEnvironmentOptions)
    (w : ResponseWriter) (r : Request) (hget : r.Method = MethodGet) :
    handleRequests c o w r = some ⟨w, r.closeBody, [], [], [], [], []⟩ ∧
    (∀ (hmacSecret : Bytes) (requireGitHubHeaders : Bool),
      ValidateWebhook w r hmacSecret requireGitHubHeaders
        = some ⟨[], [], none, false, 200, w, r.closeBody, []⟩) ∧
    r.closeBody.Body.read = r.Body.read := by
  refine ⟨?_, fun s q => validateWebhook_get w r s q hget, rfl⟩
  exact handleRequests_of_invalid c o w r _ (validateWebhook_get w r o.secret false hget) rfl

/-- C6, at a GET without headers: nothing is written and nothing is run. -/
theorem C6_get_probe_is_inert_witness :
    handleRequests exampleCollaborators exampleOptions ResponseWriter.fresh getRequest
      = some ⟨ResponseWriter.fresh, getRequest.closeBody, [], [], [], [], []⟩ :=
  (C6_get_probe_is_inert exampleCollaborators exampleOptions ResponseWriter.fresh
    getRequest rfl).1

/-- C7: for every request `ValidateWebhook` accepts, `handleRequests` invokes the pipeline
step exactly once, with a request built from the zero value whose branch is the configured
branch, whose revision is "master", whose trigger is "manual", whose clone URL is the
configured source URL, whose temporary directory is deleted, and whose custom labels are,
up to order, one "key=value" entry per entry of the label map; this for every behaviour of
the collaborators, the git-credentials step included. -/
theorem C7_accepted_request_triggers_once (c : Collaborators)
    (o : ControllerEnvironmentOptions) (w : ResponseWriter) (r : Request) (v : Validated)
    (hv : ValidateWebhook w r o.secret false = some v) (hvalid : v.valid = true) :
    ∃ h pr, handleRequests c o w r = some h ∧ h.pipelineRuns = [pr] ∧
      pr.Branch = o.Branch ∧ pr.Revision = str "master" ∧ pr.Trigger = str "manual" ∧
      pr.CloneGitURL = o.SourceURL ∧ pr.DeleteTempDir = true ∧
      pr.CustomLabels.Perm (o.Labels.map (fun kv => kv.1 ++ str "=" ++ kv.2)) ∧
      pr.CustomLabels.length = o.Labels.length ∧
      pr = { StepCreateTaskOptions.zero with
        CommonOptions := some o.CommonOptions
        PipelineKind := str "release"
        SourceName := str "source"
        Duration := 20000000000
        Trigger := str "manual"
        CloneGitURL := o.SourceURL
        DeleteTempDir := true
        Branch := o.Branch
        Revision := str "master"
        ServiceAccount := o.CommonOptions.ServiceAccount
        CustomLabels := pr.CustomLabels } := by
  refine ⟨_, pipelineRequest c o, handleRequests_of_valid c o w r v hv hvalid, ?_, ?_⟩
  · exact startPipelineRun_pipelineRuns c o v.w v.r
  · rw [pipelineRequest_eq]
    refine ⟨rfl, rfl, rfl, rfl, rfl, ?_, ?_, rfl⟩
    · exact (c.rangeOrder_perm o.Labels).map _
    · simp [(c.rangeOrder_perm o.Labels).length_eq]

/-- C7, at a POST signed with the controller's secret, with a git-credentials step that
fails. -/
theorem C7_accepted_request_triggers_once_witness :
    ∃ h pr, handleRequests
        { exampleCollaborators with stepGitCredentialsRun := fun _ => some (str "no git") }
        exampleOptions ResponseWriter.fresh
        (postRequest (PayloadSignature (str "{}") exampleOptions.secret) (str "{}")) = some h ∧
      h.pipelineRuns = [pr] ∧ pr.Branch = str "staging" ∧ pr.Revision = str "master" ∧
      pr.CustomLabels.length = 2 := by
  obtain ⟨h, pr, hh, hruns, hb, hr, _, _, _, _, hl, _⟩ :=
    C7_accepted_request_triggers_once
      { exampleCollaborators with stepGitCredentialsRun := fun _ => some (str "no git") }
      exampleOptions ResponseWriter.fresh
      (postRequest (PayloadSignature (str "{}") exampleOptions.secret) (str "{}")) _
      (validateWebhook_signed_post ResponseWriter.fresh (str "{}") exampleOptions.secret) rfl
  exact ⟨h, pr, hh, hruns, hb, hr, hl⟩

/-- A value written with `Secret.set` is the value read back. -/
theorem secret_get_set (s : Secret) (key : GoString) (value : Bytes) :
    (s.set key value).get key = value := by
  simp [Secret.set, Secret.get, List.lookup]

/-- After `ensureHmacTokenPopulated` returns without an error the token is not empty. -/
theorem ensureHmacTokenPopulated_token (g : TokenSource) (o o1 : ControllerEnvironmentOptions)
    (calls : List Call) (h : ensureHmacTokenPopulated g o = (none, o1, calls)) :
    o1.CommonOptions.HMACToken ≠ [] := by
  unfold ensureHmacTokenPopulated at h
  by_cases htok : o.CommonOptions.HMACToken = []
  · rw [if_pos htok] at h
    cases hg : g.generate 41 with
    | error e => rw [hg] at h; cases h
    | ok t =>
      rw [hg] at h
      cases h
      have hlen := g.generate_length 41 t hg
      intro hnil
      simp only at hnil
      rw [hnil] at hlen
      cases hlen
  · rw [if_neg htok] at h
    cases h
    exact htok

/-- The last check of `loadOrCreateHmacSecret` returns the value under "hmac", if any. -/
theorem returnSecretValue_ok (secret : Option Secret) (ns : GoString) (v : Bytes)
    (h : returnSecretValue secret ns = .ok v) :
    ∃ s, secret = some s ∧ v = s.get environmentControllerHmacSecretKey := by
  unfold returnSecretValue at h
  cases secret with
  | none => cases h
  | some s =>
    by_cases hd : s.Data = none
    · simp only [hd, if_true] at h
      cases h
    · simp only [hd, if_false] at h
      cases h
      exact ⟨s, rfl, rfl⟩

/-- C8: in a cluster that can be reached and whose secret "environment-controller-hmac"
holds a non-empty value under the key "hmac", `loadOrCreateHmacSecret` returns exactly that
value and no error; the only call it makes is the `Get` (no token is generated, no `Update`
and no `Create` is issued) and the options are unchanged, so a further call returns the
same bytes. -/
theorem C8_existing_secret_returned (k : Cluster) (g : TokenSource)
    (o : ControllerEnvironmentOptions) (ns : GoString) (secret : Secret)
    (hclient : k.kubeClientAndNamespace = .ok ns)
    (hget : k.secretGet environmentControllerHmacSecret = .ok secret)
    (hvalue : secret.get environmentControllerHmacSecretKey ≠ []) :
    loadOrCreateHmacSecret k g o
      = (.ok (secret.get environmentControllerHmacSecretKey), o,
          [Call.secretGet environmentControllerHmacSecret]) ∧
    (loadOrCreateHmacSecret k g (loadOrCreateHmacSecret k g o).2.1).1
      = .ok (secret.get environmentControllerHmacSecretKey) := by
  have hdata : secret.Data ≠ none := by
    intro hn
    apply hvalue
    simp [Secret.get, hn]
  have hlen : ¬ (secret.get environmentControllerHmacSecretKey).length = 0 := by
    intro h0
    exact hvalue (List.length_eq_zero.mp h0)
  have hcall : loadOrCreateHmacSecret k g o
      = (.ok (secret.get environmentControllerHmacSecretKey), o,
          [Call.secretGet environmentControllerHmacSecret]) := by
    simp [loadOrCreateHmacSecret, hclient, hget, hdata, hlen, returnSecretValue]
  refine ⟨hcall, ?_⟩
  rw [hcall]
  simp [loadOrCreateHmacSecret, hclient, hget, hdata, hlen, returnSecretValue]

/-- C8, at a cluster whose secret holds "s3cr3t". -/
theorem C8_existing_secret_returned_witness :
    loadOrCreateHmacSecret (exampleCluster populatedSecret (fun s => s)) exampleTokens
        exampleOptions
      = (.ok (str "s3cr3t"), exampleOptions,
          [Call.secretGet environmentControllerHmacSecret]) :=
  (C8_existing_secret_returned (exampleCluster populatedSecret (fun s => s)) exampleTokens
    exampleOptions (str "jx") populatedSecret rfl rfl (by decide)).1

/-- C9 as stated fails: a store whose `Update` succeeds and answers with a secret that has
a data map without the key "hmac" makes `loadOrCreateHmacSecret` return the empty byte
sequence and no error. -/
theorem C9_counterexample :
    (loadOrCreateHmacSecret (exampleCluster emptySecret (fun s => ⟨s.Name, some []⟩))
      exampleTokens exampleOptions).1 = .ok [] := by
  rfl

/-- C9 (amended): for every secret store whose successful `Update` answers with a secret
that holds under "hmac" the value it was sent, and for every initial value of the options'
HMAC token, whenever `loadOrCreateHmacSecret` returns without an error the returned byte
sequence is non-empty. -/
theorem C9_returned_secret_nonempty (k : Cluster) (g : TokenSource)
    (o : ControllerEnvironmentOptions)
    (hecho : ∀ s s1, k.secretUpdate s = .ok s1 →
      s1.get environmentControllerHmacSecretKey = s.get environmentControllerHmacSecretKey)
    (v : Bytes) (hres : (loadOrCreateHmacSecret k g o).1 = .ok v) : v ≠ [] := by
  unfold loadOrCreateHmacSecret at hres
  cases hclient : k.kubeClientAndNamespace with
  | error e => rw [hclient] at hres; cases hres
  | ok ns =>
    rw [hclient] at hres
    simp only at hres
    cases hget : k.secretGet environmentControllerHmacSecret with
    | error e =>
      rw [hget] at hres
      simp only at hres
      rcases hens : ensureHmacTokenPopulated g o with ⟨e1, o1, calls⟩
      rw [hens] at hres
      cases e1 with
      | some err => cases hres
      | none =>
        simp only at hres
        cases hcreate : k.secretCreate ⟨environmentControllerHmacSecret,
            some [(environmentControllerHmacSecretKey, o1.CommonOptions.HMACToken)]⟩ with
        | error e2 => rw [hcreate] at hres; cases hres
        | ok s2 =>
          rw [hcreate] at hres
          cases hres
    | ok secret =>
      rw [hget] at hres
      simp only at hres
      by_cases hempty : secret.Data = none ∨
          (secret.get environmentControllerHmacSecretKey).length = 0
      · rw [if_pos hempty] at hres
        rcases hens : ensureHmacTokenPopulated g o with ⟨e1, o1, calls⟩
        rw [hens] at hres
        cases e1 with
        | some err => cases hres
        | none =>
          simp only at hres
          have htok := ensureHmacTokenPopulated_token g o o1 calls hens
          cases hupd : k.secretUpdate
              (secret.set environmentControllerHmacSecretKey o1.CommonOptions.HMACToken) with
          | error e2 => rw [hupd] at hres; cases hres
          | ok s2 =>
            rw [hupd] at hres
            simp only at hres
            obtain ⟨s3, hs3, hv⟩ := returnSecretValue_ok _ _ _ hres
            cases hs3
            rw [hv, hecho _ _ hupd, secret_get_set]
            exact htok
      · rw [if_neg hempty] at hres
        simp only at hres
        obtain ⟨s3, hs3, hv⟩ := returnSecretValue_ok _ _ _ hres
        cases hs3
        rw [hv]
        intro hnil
        exact hempty (Or.inr (by rw [hnil]; rfl))

/-- C9 (amended), at a store that holds an empty secret and whose `Update` answers with
the secret it was sent: the 41 generated bytes are returned. -/
theorem C9_returned_secret_nonempty_witness :
    (loadOrCreateHmacSecret (exampleCluster emptySecret (fun s => s)) exampleTokens
      exampleOptions).1 = .ok (List.replicate 41 97) ∧ List.replicate 41 97 ≠ [] :=
  ⟨rfl,
    C9_returned_secret_nonempty (exampleCluster emptySecret (fun s => s)) exampleTokens
      exampleOptions (fun s s1 h => by cases h; rfl) (List.replicate 41 97) rfl⟩

/-- No flag writes the field `NoRegisterWebHook`. -/
theorem setFlag_noRegisterWebHook (o o1 : ControllerEnvironmentOptions) (name : GoString)
    (value : FlagValue) (h : setFlag o name value = some o1) :
    o1.NoRegisterWebHook = o.NoRegisterWebHook := by
  unfold setFlag at h
  cases value with
  | int n =>
    simp only at h
    split_ifs at h
    cases h; rfl
  | bool b =>
    simp only at h
    split_ifs at h <;> (cases h; rfl)
  | string v =>
    simp only at h
    split_ifs at h <;> (cases h; rfl)

/-- No command line changes the field `NoRegisterWebHook`. -/
theorem parseFlags_noRegisterWebHook (flags : List (GoString × FlagValue)) :
    ∀ (o o1 : ControllerEnvironmentOptions), parseFlags o flags = some o1 →
      o1.NoRegisterWebHook = o.NoRegisterWebHook := by
  induction flags with
  | nil =>
    intro o o1 h
    simp only [parseFlags] at h
    cases h; rfl
  | cons f rest ih =>
    intro o o1 h
    obtain ⟨name, value⟩ := f
    simp only [parseFlags] at h
    cases hset : setFlag o name value with
    | none => rw [hset] at h; cases h
    | some o2 =>
      rw [hset] at h
      simp only at h
      rw [ih o2 o1 h, setFlag_noRegisterWebHook o o2 name value hset]

/-- C10, the code at the failing input: whatever the command line, `Run` is called with
`NoRegisterWebHook = false`; and with "--no-register-webhook=true" on the command line and
collaborators that all succeed, the flag has set `NoGitCredeentialsInit` instead, and `Run`
calls `registerWebHook` with the webhook URL and the secret (and the provider's
`CreateWebHook`) before it serves, while it skips `InitGitConfigAndUser`. -/
theorem C10_no_register_flag_still_registers :
    (∀ commonOpts flags o, NewCmdControllerEnvironment commonOpts flags = some o →
      o.NoRegisterWebHook = false) ∧
    (∃ o, NewCmdControllerEnvironment ⟨[], [], false⟩ noRegisterCommandLine = some o ∧
      o.NoGitCredeentialsInit = true ∧
      (Run exampleStartup o).2.2 =
        [Call.secretGet (str "environment-controller-hmac"),
         Call.registerWebHook (str "https://hook.example.com") (str "s3cr3t"),
         Call.createWebHook ⟨str "acme", str "env", str "https://hook.example.com",
           str "s3cr3t"⟩,
         Call.listenAndServe (str ":8080") (str "/")]) := by
  refine ⟨fun commonOpts flags o h => ?_, ?_⟩
  · exact parseFlags_noRegisterWebHook flags _ o h
  · exact ⟨_, rfl, rfl, by decide⟩

/-- C12: for every request, every secret and either value of `requireGitHubHeaders`, an
accepting return of `ValidateWebhook` carries a non-empty event type; so the test
`eventType == ""` of `handleRequests` never changes the outcome (the handler does what it
would do with the test on `valid` alone), and `handleRequests` invokes the pipeline step
exactly when `ValidateWebhook` returns isValid = true. -/
theorem C12_valid_event_type_nonempty :
    (∀ (w : ResponseWriter) (r : Request) (hmacSecret : Bytes) (requireGitHubHeaders : Bool)
        (v : Validated),
      ValidateWebhook w r hmacSecret requireGitHubHeaders = some v → v.valid = true →
        v.eventType ≠ []) ∧
    (∀ (c : Collaborators) (o : ControllerEnvironmentOptions) (w : ResponseWriter)
        (r : Request),
      ∃ v h, ValidateWebhook w r o.secret false = some v ∧
        handleRequests c o w r = some h ∧
        h = (if v.valid = true then { startPipelineRun c o v.w v.r with debug := v.log }
             else ⟨v.w, v.r, [], [], [], [], v.log⟩) ∧
        (h.pipelineRuns ≠ [] ↔ v.valid = true)) := by
  refine ⟨fun w r s q v hv hvalid => eventType_ne_nil_of_valid w r s q v hv hvalid, ?_⟩
  intro c o w r
  obtain ⟨v, hv, _⟩ := validateWebhook_cases w r o.secret false
  by_cases hvalid : v.valid = true
  · refine ⟨v, _, hv, handleRequests_of_valid c o w r v hv hvalid, ?_, ?_⟩
    · rw [if_pos hvalid]
    · constructor
      · intro _; exact hvalid
      · intro _
        show (startPipelineRun c o v.w v.r).pipelineRuns ≠ []
        rw [startPipelineRun_pipelineRuns]
        exact List.cons_ne_nil _ _
  · have hfalse : v.valid = false := by simpa using hvalid
    refine ⟨v, _, hv, handleRequests_of_invalid c o w r v hv hfalse, ?_, ?_⟩
    · rw [if_neg hvalid]
    · constructor
      · intro h; exact absurd rfl h
      · intro h; exact absurd h hvalid

/-! ## The verifier as a comparison of digests -/

theorem lor_eq_zero (x y : Nat) (h : x ||| y = 0) : x = 0 ∧ y = 0 := by
  have hb : ∀ i, (x.testBit i || y.testBit i) = false := by
    intro i
    rw [← Nat.testBit_or, h, Nat.zero_testBit]
  constructor
  · apply Nat.eq_of_testBit_eq
    intro i
    have := hb i
    rw [Nat.zero_testBit]
    cases hx : x.testBit i <;> simp_all
  · apply Nat.eq_of_testBit_eq
    intro i
    have := hb i
    rw [Nat.zero_testBit]
    cases hy : y.testBit i <;> simp_all

/-- The OR that `ConstantTimeCompare` accumulates is zero only if every term is. -/
theorem foldl_lor_eq_zero (l : List Nat) :
    ∀ v, l.foldl (fun v d => v ||| d) v = 0 → v = 0 ∧ ∀ d ∈ l, d = 0 := by
  induction l with
  | nil => intro v h; exact ⟨h, by simp⟩
  | cons a t ih =>
    intro v h
    obtain ⟨hva, ht⟩ := ih (v ||| a) h
    obtain ⟨hv, ha⟩ := lor_eq_zero v a hva
    refine ⟨hv, ?_⟩
    intro d hd
    simp only [List.mem_cons] at hd
    rcases hd with hd | hd
    · rw [hd]; exact ha
    · exact ht d hd

/-- The OR of bytes is a byte. -/
theorem foldl_lor_lt (l : List Nat) (hl : ∀ d ∈ l, d < 2 ^ 8) :
    ∀ v, v < 2 ^ 8 → l.foldl (fun v d => v ||| d) v < 2 ^ 8 := by
  induction l with
  | nil => intro v hv; exact hv
  | cons a t ih =>
    intro v hv
    exact ih (fun d hd => hl d (by simp [hd])) (v ||| a)
      (Nat.or_lt_two_pow hv (hl a (by simp)))

theorem zipWith_xor_lt (x y : Bytes) :
    ∀ d ∈ List.zipWith (fun a b => (a % 256) ^^^ (b % 256)) x y, d < 2 ^ 8 := by
  induction x generalizing y with
  | nil => simp
  | cons a t ih =>
    cases y with
    | nil => simp
    | cons b u =>
      intro d hd
      simp only [List.zipWith_cons_cons, List.mem_cons] at hd
      rcases hd with hd | hd
      · rw [hd]
        exact Nat.xor_lt_two_pow (Nat.mod_lt _ (by norm_num)) (Nat.mod_lt _ (by norm_num))
      · exact ih u d hd

theorem zipWith_xor_zero (x y : Bytes) (hlen : x.length = y.length)
    (h : ∀ d ∈ List.zipWith (fun a b => (a % 256) ^^^ (b % 256)) x y, d = 0) :
    x.map (fun b => b % 256) = y.map (fun b => b % 256) := by
  induction x generalizing y with
  | nil =>
    cases y with
    | nil => rfl
    | cons b u => cases hlen
  | cons a t ih =>
    cases y with
    | nil => cases hlen
    | cons b u =>
      simp only [List.zipWith_cons_cons, List.mem_cons, forall_eq_or_imp] at h
      simp only [List.length_cons, Nat.add_right_cancel_iff] at hlen
      simp only [List.map_cons]
      rw [Nat.xor_eq_zero.mp h.1, ih u hlen h.2]

set_option maxRecDepth 100000 in
/-- `ConstantTimeByteEq(v, 0)` is 1 only for the zero byte. -/
theorem constantTimeByteEq_zero : ∀ v : Nat, v < 256 → constantTimeByteEq v 0 = 1 → v = 0 := by
  decide

/-- `ConstantTimeCompare` answers 1 exactly for equal byte sequences. -/
theorem constantTimeCompare_eq_one (x y : Bytes) :
    constantTimeCompare x y = 1 ↔
      x.map (fun b => b % 256) = y.map (fun b => b % 256) := by
  constructor
  · intro h
    unfold constantTimeCompare at h
    by_cases hlen : x.length = y.length
    · simp only [ne_eq, hlen, not_true, if_false] at h
      have hlt := foldl_lor_lt _ (zipWith_xor_lt x y) 0 (by norm_num)
      have hz := constantTimeByteEq_zero _ hlt h
      exact zipWith_xor_zero x y hlen (foldl_lor_eq_zero _ 0 hz).2
    · simp only [ne_eq, hlen, not_false_eq_true, if_true] at h
      cases h
  · intro h
    have hlen : x.length = y.length := by
      have := congrArg List.length h
      simpa using this
    unfold constantTimeCompare
    simp only [ne_eq, hlen, not_true, if_false]
    have hz : ∀ d ∈ List.zipWith (fun a b => (a % 256) ^^^ (b % 256)) x y, d = 0 := by
      clear hlen
      induction x generalizing y with
      | nil => simp
      | cons a t ih =>
        cases y with
        | nil => simp
        | cons b u =>
          simp only [List.map_cons, List.cons.injEq] at h
          intro d hd
          simp only [List.zipWith_cons_cons, List.mem_cons] at hd
          rcases hd with hd | hd
          · rw [hd, h.1]; simp
          · exact ih u h.2 d hd
    rw [foldl_lor_zero _ hz]
    simp [constantTimeByteEq]

/-- Every byte of a digest is below 256. -/
theorem hmacSha1_bytes (key payload : Bytes) : ∀ b ∈ hmacSha1 key payload, b < 256 := by
  intro b hb
  simp only [hmacSha1, sha1, be32, List.mem_append, List.mem_cons, List.mem_singleton,
    List.not_mem_nil, or_false, List.cons_append, List.nil_append] at hb
  rcases hb with h | h | h | h | h | h | h | h | h | h | h | h | h | h | h | h | h | h | h | h <;>
    (rw [h]; exact Nat.mod_lt _ (by norm_num))

theorem map_mod_of_lt (l : Bytes) (h : ∀ b ∈ l, b < 256) : l.map (fun b => b % 256) = l := by
  induction l with
  | nil => rfl
  | cons a t ih =>
    simp only [List.map_cons]
    rw [Nat.mod_eq_of_lt (h a (by simp)), ih (fun b hb => h b (by simp [hb]))]

/-- Against the header signed for a payload `p`, the verifier accepts a payload `q` exactly
when the two payloads have the same HMAC-SHA1 digest under the key. -/
theorem validatePayload_signed_iff (p q key : Bytes) :
    ValidatePayload q (PayloadSignature p key) key = some true ↔
      hmacSha1 key q = hmacSha1 key p := by
  have hlen : (str "sha1=").length = 5 := by decide
  have hs : sliceFrom (str "sha1=" ++ hexEncodeToString (hmacSha1 key p)) 5
      = some (hexEncodeToString (hmacSha1 key p)) := by
    unfold sliceFrom
    rw [if_pos (by simp [hlen])]
    rw [← hlen, List.drop_left]
  simp only [ValidatePayload, PayloadSignature, hasPrefix_append, Bool.not_true, hs,
    hexDecode_encode, hmacEqual]
  simp only [Bool.false_eq_true, if_false, Option.some.injEq, beq_iff_eq]
  rw [constantTimeCompare_eq_one, List.map_map]
  have h1 : (fun b => b % 256) ∘ (fun b => b % 256) = fun b : Nat => b % 256 := by
    funext b
    simp
  rw [h1, map_mod_of_lt _ (hmacSha1_bytes key p), map_mod_of_lt _ (hmacSha1_bytes key q)]
  exact eq_comm

end Jx
